import Mathlib

/-!
Verification of the offline-first file-upload and note-sync system.

The development shallowly embeds the server code:
  - the MD5 hash interface used by both upload paths
    (crypto.createHash, hash.update, hash.digest);
  - the FileHandler class of fileHandler.js (buffered, streamed and
    chunked uploads, the in-memory activeUploads session map, the
    cleanup timers, cancellation);
  - the OptimizedDatabaseManager class of optimizedDatabase.js
    (note CRUD, validation, the dual SQLite/MySQL stores, the
    priority-ordered batch sync, retry backoff, the connectivity probe)
    together with the legacy DatabaseManager probe.

Machine integers are modelled as Nat with explicit reduction mod 2^32;
filesystem and network effects are modelled by explicit state passing,
with remote-call outcomes supplied by boolean oracles.
-/

namespace MD5

/-- The word modulus 2^32 of the MD5 state. -/
def M32 : Nat := 4294967296

/-- Left rotation of a 32-bit word (x is assumed < 2^32). -/
def rotl (x n : Nat) : Nat := ((x <<< n) ||| (x >>> (32 - n))) % M32

/-- The four 32-bit chaining words of the MD5 state. -/
structure Digest where
  a : Nat
  b : Nat
  c : Nat
  d : Nat
  deriving Repr, DecidableEq

/-- MD5 initial chaining value. -/
def initDigest : Digest :=
  { a := 0x67452301, b := 0xefcdab89, c := 0x98badcfe, d := 0x10325476 }

/-- The 64 MD5 round constants, floor(2^32 * abs(sin(i+1))). -/
def kTable : List Nat :=
  [0xd76aa478, 0xe8c7b756, 0x242070db, 0xc1bdceee,
   0xf57c0faf, 0x4787c62a, 0xa8304613, 0xfd469501,
   0x698098d8, 0x8b44f7af, 0xffff5bb1, 0x895cd7be,
   0x6b901122, 0xfd987193, 0xa679438e, 0x49b40821,
   0xf61e2562, 0xc040b340, 0x265e5a51, 0xe9b6c7aa,
   0xd62f105d, 0x02441453, 0xd8a1e681, 0xe7d3fbc8,
   0x21e1cde6, 0xc33707d6, 0xf4d50d87, 0x455a14ed,
   0xa9e3e905, 0xfcefa3f8, 0x676f02d9, 0x8d2a4c8a,
   0xfffa3942, 0x8771f681, 0x6d9d6122, 0xfde5380c,
   0xa4beea44, 0x4bdecfa9, 0xf6bb4b60, 0xbebfbc70,
   0x289b7ec6, 0xeaa127fa, 0xd4ef3085, 0x04881d05,
   0xd9d4d039, 0xe6db99e5, 0x1fa27cf8, 0xc4ac5665,
   0xf4292244, 0x432aff97, 0xab9423a7, 0xfc93a039,
   0x655b59c3, 0x8f0ccc92, 0xffeff47d, 0x85845dd1,
   0x6fa87e4f, 0xfe2ce6e0, 0xa3014314, 0x4e0811a1,
   0xf7537e82, 0xbd3af235, 0x2ad7d2bb, 0xeb86d391]

/-- The 64 MD5 per-round left-rotation amounts. -/
def sTable : List Nat :=
  [7, 12, 17, 22, 7, 12, 17, 22, 7, 12, 17, 22, 7, 12, 17, 22,
   5, 9, 14, 20, 5, 9, 14, 20, 5, 9, 14, 20, 5, 9, 14, 20,
   4, 11, 16, 23, 4, 11, 16, 23, 4, 11, 16, 23, 4, 11, 16, 23,
   6, 10, 15, 21, 6, 10, 15, 21, 6, 10, 15, 21, 6, 10, 15, 21]

/-- Byte i of a byte list, 0 when out of range. -/
def byteAt (l : List Nat) (i : Nat) : Nat := l.getD i 0

/-- Little-endian 32-bit word g of a 64-byte block. -/
def leWord (block : List Nat) (g : Nat) : Nat :=
  byteAt block (4 * g) + byteAt block (4 * g + 1) * 256 +
    byteAt block (4 * g + 2) * 65536 + byteAt block (4 * g + 3) * 16777216

/-- One of the 64 MD5 rounds applied to the working state. -/
def md5Step (block : List Nat) (st : Digest) (i : Nat) : Digest :=
  let fg :=
    if i < 16 then
      (((st.b &&& st.c) ||| ((st.b ^^^ 0xffffffff) &&& st.d)), i)
    else if i < 32 then
      (((st.d &&& st.b) ||| ((st.d ^^^ 0xffffffff) &&& st.c)), (5 * i + 1) % 16)
    else if i < 48 then
      ((st.b ^^^ st.c ^^^ st.d), (3 * i + 5) % 16)
    else
      ((st.c ^^^ (st.b ||| (st.d ^^^ 0xffffffff))), (7 * i) % 16)
  let f2 := (fg.1 + st.a + kTable.getD i 0 + leWord block fg.2) % M32
  { a := st.d, d := st.c, c := st.b, b := (st.b + rotl f2 (sTable.getD i 0)) % M32 }

/-- The MD5 compression function on one 64-byte block. -/
def compress (st : Digest) (block : List Nat) : Digest :=
  let r := (List.range 64).foldl (md5Step block) st
  { a := (st.a + r.a) % M32, b := (st.b + r.b) % M32,
    c := (st.c + r.c) % M32, d := (st.d + r.d) % M32 }

/-- Fuel-indexed kernel of processBlocks; any fuel at least the length of
the list yields the same result, and structural recursion on the fuel keeps
the definition computable by kernel reduction. -/
def processBlocksF : Nat → Digest → List Nat → Digest × List Nat
  | 0, h, l => (h, l)
  | fuel + 1, h, l =>
    if 64 ≤ l.length then
      processBlocksF fuel (compress h (l.take 64)) (l.drop 64)
    else
      (h, l)

/-- Consume all leading complete 64-byte blocks of a byte list, returning the
new chaining state and the leftover bytes (fewer than 64). -/
def processBlocks (h : Digest) (l : List Nat) : Digest × List Nat :=
  processBlocksF l.length h l

/-- Little-endian 4-byte encoding of a 32-bit word. -/
def toLE4 (x : Nat) : List Nat :=
  [x % 256, x / 256 % 256, x / 65536 % 256, x / 16777216 % 256]

/-- Little-endian 8-byte encoding of a 64-bit value. -/
def toLE8 (x : Nat) : List Nat := toLE4 (x % M32) ++ toLE4 (x / M32)

/-- MD5 padding for a message of the given byte length: a 0x80 byte, zero
bytes up to 56 mod 64, then the bit length in 8 little-endian bytes. -/
def padBytes (len : Nat) : List Nat :=
  0x80 :: List.replicate ((119 - len % 64) % 64) 0 ++ toLE8 (len * 8)

/-- The 16 digest bytes of a final chaining state. -/
def digestBytes (d : Digest) : List Nat :=
  toLE4 d.a ++ toLE4 d.b ++ toLE4 d.c ++ toLE4 d.d

/-- One-shot MD5 of a whole byte list (the buffered hashing path). -/
def md5 (msg : List Nat) : List Nat :=
  digestBytes (processBlocks initDigest (msg ++ padBytes msg.length)).1

/-- Incremental hashing context, as kept by a crypto hash object between
update calls: the chaining state, the buffered leftover bytes, and the
total length fed so far. -/
structure Ctx where
  h : Digest
  buf : List Nat
  len : Nat
  deriving Repr, DecidableEq

/-- Fresh hash context (crypto.createHash). -/
def initCtx : Ctx := { h := initDigest, buf := [], len := 0 }

/-- Feed bytes to an incremental hash (hash.update): complete 64-byte
blocks are compressed eagerly, the remainder is buffered. -/
def update (c : Ctx) (bytes : List Nat) : Ctx :=
  let p := processBlocks c.h (c.buf ++ bytes)
  { h := p.1, buf := p.2, len := c.len + bytes.length }

/-- Finish an incremental hash (hash.digest): pad the buffered remainder
with the total length and compress the final block(s). -/
def final (c : Ctx) : List Nat :=
  digestBytes (processBlocks c.h (c.buf ++ padBytes c.len)).1

/-- The incremental context determined by all bytes fed so far. -/
def ctxOf (m : List Nat) : Ctx :=
  { h := (processBlocks initDigest m).1, buf := (processBlocks initDigest m).2,
    len := m.length }

end MD5

namespace FileHandler

/-- Association-list lookup for the in-memory maps and the modelled disk. -/
def getEntry {α : Type} : List (String × α) → String → Option α
  | [], _ => none
  | (k', v) :: rest, k => if k' = k then some v else getEntry rest k

/-- Association-list insert-or-replace (Map.set). -/
def setEntry {α : Type} : List (String × α) → String → α → List (String × α)
  | [], k, v => [(k, v)]
  | (k', v') :: rest, k, v =>
    if k' = k then (k, v) :: rest else (k', v') :: setEntry rest k v

/-- Association-list removal (Map.delete). -/
def removeEntry {α : Type} (m : List (String × α)) (k : String) :
    List (String × α) :=
  m.filter (fun p => p.1 != k)

/-- An entry in the activeUploads map of FileHandler. Streaming sessions
leave tempPath, finalPath and chunks unused, exactly as the corresponding
JavaScript objects carry no such properties. -/
structure UploadSession where
  fileName : String
  tempPath : Option String
  finalPath : Option String
  totalSize : Nat
  uploadedSize : Nat
  chunks : List Nat
  mimeType : String
  hashCtx : MD5.Ctx
  hashFinalized : Bool
  status : String
  deriving Repr, DecidableEq

/-- The state of a FileHandler instance: the activeUploads session map,
the modelled filesystem (path to byte content), the pending fire-and-forget
cleanup timers (fire time, uploadId), and the current clock. -/
structure FHState where
  activeUploads : List (String × UploadSession)
  disk : List (String × List Nat)
  timers : List (Nat × String)
  now : Nat
  deriving Repr, DecidableEq

/-- Read a file from the modelled disk (fs.stat / fs.readFile). -/
def readDisk (disk : List (String × List Nat)) (p : String) : Option (List Nat) :=
  getEntry disk p

/-- Write a file, creating or truncating it (fs.writeFile). -/
def writeDisk (disk : List (String × List Nat)) (p : String) (bs : List Nat) :
    List (String × List Nat) :=
  setEntry disk p bs

/-- Append to a file, creating it when absent (fs.appendFile). -/
def appendDisk (disk : List (String × List Nat)) (p : String) (bs : List Nat) :
    List (String × List Nat) :=
  setEntry disk p ((readDisk disk p).getD [] ++ bs)

/-- Delete a file (fs.unlink with the error swallowed). -/
def unlinkDisk (disk : List (String × List Nat)) (p : String) :
    List (String × List Nat) :=
  removeEntry disk p

/-- Rename a file (fs.rename); none models the thrown ENOENT error when the
source does not exist. -/
def renameDisk (disk : List (String × List Nat)) (src dst : String) :
    Option (List (String × List Nat)) :=
  match readDisk disk src with
  | none => none
  | some bs => some (writeDisk (unlinkDisk disk src) dst bs)

/-- Milliseconds after which a terminal session is dropped from the map. -/
def cleanupDelay : Nat := 30000

/-- FileHandler.initializeChunkedUpload: allocate a temp path and register
an INITIALIZED session. The uuid-generated uploadId and storage fileName are
supplied by the caller, resolving the nondeterminism of uuidv4. -/
def initializeChunkedUpload (st : FHState) (uploadId fileName : String)
    (originalName : String) (totalSize : Nat) (mimeType : String) :
    FHState × String × String :=
  let tempPath := "temp/" ++ uploadId ++ "_" ++ fileName
  let finalPath := "uploads/" ++ fileName
  let session : UploadSession :=
    { fileName := originalName, tempPath := some tempPath,
      finalPath := some finalPath, totalSize := totalSize, uploadedSize := 0,
      chunks := [], mimeType := mimeType, hashCtx := MD5.initCtx,
      hashFinalized := false, status := "initialized" }
  ({ st with activeUploads := setEntry st.activeUploads uploadId session },
    uploadId, fileName)

/-- Result object of a successful uploadChunk call (the float progress
percentage of the source is uploadedSize / totalSize * 100). -/
structure ChunkResult where
  uploadId : String
  chunkIndex : Nat
  uploadedSize : Nat
  totalSize : Nat
  deriving Repr, DecidableEq

/-- FileHandler.uploadChunk: append the chunk bytes to the temp file of the
session, update the running hash, size, chunk-index list and status. An
unknown uploadId is rejected before any mutation; inside the try block the
bytes are appended first, and if the hash object of the session was already
digested by finalizeChunkedUpload the subsequent hash.update throws the
crypto hash-finalized error (Digest already called), which the catch block
turns into status failed before rethrowing. Errors therefore carry the
mutated state alongside the message. -/
def uploadChunk (st : FHState) (uploadId : String) (chunkData : List Nat)
    (chunkIndex : Nat) : Except (FHState × String) (FHState × ChunkResult) :=
  match getEntry st.activeUploads uploadId with
  | none => .error (st, "Upload session not found")
  | some upload =>
    match upload.tempPath with
    | none =>
      .error ({ st with
                activeUploads := setEntry st.activeUploads uploadId
                  { upload with status := "failed" } }, "append failed")
    | some tp =>
      let disk' := appendDisk st.disk tp chunkData
      if upload.hashFinalized then
        .error ({ st with
                  disk := disk',
                  activeUploads := setEntry st.activeUploads uploadId
                    { upload with status := "failed" } },
          "Digest already called")
      else
        let upload' : UploadSession :=
          { upload with
            hashCtx := MD5.update upload.hashCtx chunkData,
            uploadedSize := upload.uploadedSize + chunkData.length,
            chunks := upload.chunks ++ [chunkIndex],
            status := "uploading" }
        .ok ({ st with
               disk := disk',
               activeUploads := setEntry st.activeUploads uploadId upload' },
          { uploadId := uploadId, chunkIndex := chunkIndex,
            uploadedSize := upload'.uploadedSize, totalSize := upload.totalSize })

/-- Record returned for a finished upload. -/
structure FileRecord where
  uploadId : String
  originalName : String
  fileName : String
  filePath : String
  fileSize : Nat
  mimeType : String
  hash : List Nat
  deriving Repr, DecidableEq

/-- FileHandler.finalizeChunkedUpload: rename the temp file to its final
location, read the resulting size, produce the digest, mark the session
completed and schedule its cleanup. No comparison against the declared
totalSize is performed. -/
def finalizeChunkedUpload (st : FHState) (uploadId : String) :
    Except String (FHState × FileRecord) :=
  match getEntry st.activeUploads uploadId with
  | none => .error "Upload session not found"
  | some upload =>
    match upload.tempPath, upload.finalPath with
    | some tp, some fp =>
      match renameDisk st.disk tp fp with
      | none => .error "rename failed"
      | some disk' =>
        let size := ((readDisk disk' fp).getD []).length
        let upload' :=
          { upload with
            hashFinalized := true
            status := "completed" }
        .ok ({ st with
               disk := disk',
               activeUploads := setEntry st.activeUploads uploadId upload',
               timers := st.timers ++ [(st.now + cleanupDelay, uploadId)] },
          { uploadId := uploadId, originalName := upload.fileName,
            fileName := fp.drop 8, filePath := fp,
            fileSize := size, mimeType := upload.mimeType,
            hash := MD5.final upload.hashCtx })
    | _, _ => .error "rename failed"

/-- FileHandler.getUploadProgress: the session object, or null. -/
def getUploadProgress (st : FHState) (uploadId : String) : Option UploadSession :=
  getEntry st.activeUploads uploadId

/-- FileHandler.cancelUpload: delete the temp file when the session has one,
drop the session from the map, return whether a session was found. -/
def cancelUpload (st : FHState) (uploadId : String) : FHState × Bool :=
  match getEntry st.activeUploads uploadId with
  | some upload =>
    let disk' := match upload.tempPath with
      | some tp => unlinkDisk st.disk tp
      | none => st.disk
    ({ st with
       disk := disk',
       activeUploads := removeEntry st.activeUploads uploadId }, true)
  | none => (st, false)

/-- Fire every due cleanup timer: each removes its uploadId from the map. -/
def runDueTimers (st : FHState) : FHState :=
  { st with
    activeUploads := st.timers.foldl
      (fun m p => if p.1 ≤ st.now then removeEntry m p.2 else m)
      st.activeUploads,
    timers := st.timers.filter (fun p => !(decide (p.1 ≤ st.now))) }

/-- Let d milliseconds pass and fire the timers that became due. -/
def advanceTime (st : FHState) (d : Nat) : FHState :=
  runDueTimers { st with now := st.now + d }

/-- Hash computed by FileHandler.saveFile: one update over the full buffer. -/
def saveFileHash (fileBuffer : List Nat) : List Nat :=
  MD5.final (MD5.update MD5.initCtx fileBuffer)

/-- Hash computed by FileHandler.saveFileStream: one update per streamed
chunk, folded over the chunk sequence of the source. -/
def saveFileStreamHash (chunks : List (List Nat)) : List Nat :=
  MD5.final (chunks.foldl MD5.update MD5.initCtx)

/-- FileHandler.saveFileStream: register a session, pipe the source chunks
into the destination file while hashing and counting them. failAfter k (with
k before the end of the source) models a mid-stream error thrown after k
chunks were processed: the session is marked failed and the error is
rethrown; the catch block does not touch the destination file. -/
def saveFileStream (st : FHState) (uploadId fileName : String)
    (originalName mimeType : String) (source : List (List Nat))
    (failAfter : Option Nat) : Except (FHState × String) (FHState × FileRecord) :=
  let filePath := "uploads/" ++ fileName
  let fileSize := (source.map List.length).sum
  let session0 : UploadSession :=
    { fileName := originalName, tempPath := none, finalPath := none,
      totalSize := fileSize, uploadedSize := 0, chunks := [],
      mimeType := mimeType, hashCtx := MD5.initCtx, hashFinalized := false,
      status := "uploading" }
  let st0 := { st with activeUploads := setEntry st.activeUploads uploadId session0 }
  let run : Nat → Except (FHState × String) (FHState × FileRecord) := fun k =>
    if k < source.length then
      let written := (source.take k).flatten
      let stErr := { st0 with
        disk := writeDisk st0.disk filePath written,
        activeUploads := setEntry st0.activeUploads uploadId
          { session0 with
            uploadedSize := written.length,
            hashCtx := (source.take k).foldl MD5.update MD5.initCtx,
            status := "failed" } }
      .error (stErr, "stream error")
    else
      let whole := source.flatten
      let ctx := source.foldl MD5.update MD5.initCtx
      let stOk := { st0 with
        disk := writeDisk st0.disk filePath whole,
        activeUploads := setEntry st0.activeUploads uploadId
          { session0 with
            uploadedSize := whole.length, hashCtx := ctx,
            status := "completed" },
        timers := st0.timers ++ [(st0.now + cleanupDelay, uploadId)] }
      .ok (stOk,
        { uploadId := uploadId, originalName := originalName,
          fileName := fileName, filePath := filePath, fileSize := fileSize,
          mimeType := mimeType, hash := MD5.final ctx })
  match failAfter with
  | some k => run k
  | none => run source.length

/-- Projection on Except results: the success value. -/
def exceptOk {ε α : Type} : Except ε α → Option α
  | .ok a => some a
  | .error _ => none

/-- Projection on Except results: the error value. -/
def exceptErr {ε α : Type} : Except ε α → Option ε
  | .ok _ => none
  | .error e => some e

end FileHandler

namespace ODB

/-- A row of the SQLite Notes table: synced is the INTEGER 0/1 flag and
syncPriority the ordinal 1 = low, 2 = medium, 3 = high. Timestamps are
modelled as Nat. -/
structure Note where
  id : String
  title : String
  content : String
  tags : List String
  createdAt : Nat
  updatedAt : Nat
  synced : Nat
  syncPriority : Nat
  deriving Repr, DecidableEq

/-- A row of the SQLite Files table (the fields the sync engine reads). -/
structure FileRec where
  id : String
  originalName : String
  filePath : String
  fileSize : Nat
  mimeType : String
  noteId : Option String
  createdAt : Nat
  synced : Nat
  syncPriority : Nat
  deriving Repr, DecidableEq

/-- A row of the MySQL Notes table: native boolean synced, no priority. -/
structure RemoteNote where
  id : String
  title : String
  content : String
  tags : List String
  createdAt : Nat
  updatedAt : Nat
  synced : Bool
  deriving Repr, DecidableEq

/-- A row of the MySQL Files table: hash and syncPriority are stripped. -/
structure RemoteFile where
  id : String
  originalName : String
  filePath : String
  fileSize : Nat
  mimeType : String
  noteId : Option String
  createdAt : Nat
  synced : Bool
  deriving Repr, DecidableEq

/-- The state of an OptimizedDatabaseManager instance: the global isOnline
flag, both stores, the retry bookkeeping of the batch sync, and a trace of
(id, syncPriority) pairs in the order records were upserted remotely. -/
structure ODBState where
  isOnline : Bool
  sqliteNotes : List Note
  sqliteFiles : List FileRec
  mysqlNotes : List RemoteNote
  mysqlFiles : List RemoteFile
  remoteTrace : List (String × Nat)
  retryCount : Nat
  maxRetries : Nat
  batchSize : Nat
  syncInProgress : Bool
  deriving Repr, DecidableEq

/-- OptimizedDatabaseManager.checkNetworkConnection: resolve the dns.lookup
callback result; only an error with code ENOTFOUND maps to false, any other
error (or no error) maps to true. The lookup carries no timeout. -/
structure DnsError where
  code : String
  deriving Repr, DecidableEq

/-- See DnsError: the dns.lookup based probe of the optimized manager. -/
def checkNetworkConnection (res : Option DnsError) : Bool :=
  match res with
  | some e => if e.code = "ENOTFOUND" then false else true
  | none => true

/-- Sanitized payload produced by validateNoteData. -/
structure ValidatedNote where
  title : String
  content : String
  tags : List String
  deriving Repr, DecidableEq

/-- Raw note payload handed to createNote (title, optional content and
tags); field types reflect what a well-typed caller passes, so the
typeof checks of the JavaScript validator are discharged statically. -/
structure NoteData where
  title : String
  content : Option String
  tags : Option (List String)
  deriving Repr, DecidableEq

/-- Characters removed by sanitizeString: C0 controls except tab, line
feed and carriage return, plus DEL. -/
def isStrippedCtrl (c : Char) : Bool :=
  c.toNat ≤ 8 || c.toNat = 11 || c.toNat = 12 ||
    (14 ≤ c.toNat && c.toNat ≤ 31) || c.toNat = 127

/-- ASCII whitespace trimmed by the JavaScript trim call. -/
def isTrimmedSpace (c : Char) : Bool :=
  c = ' ' || c = '\t' || c = '\n' || c = '\r'

/-- Remove leading and trailing whitespace from a character list. -/
def trimChars (l : List Char) : List Char :=
  ((l.dropWhile isTrimmedSpace).reverse.dropWhile isTrimmedSpace).reverse

/-- OptimizedDatabaseManager.sanitizeString: drop dangerous control
characters, then trim surrounding whitespace. -/
def sanitizeString (s : String) : String :=
  String.mk (trimChars (s.toList.filter (fun c => !isStrippedCtrl c)))

/-- OptimizedDatabaseManager.validateNoteData: empty titles, overlong
titles and overlong contents are rejected; the survivors are sanitized.
An empty content string is falsy in JavaScript, hence skipped by both the
length check and the sanitizer. -/
def validateNoteData (nd : NoteData) : Except String ValidatedNote :=
  if nd.title = "" then
    .error "Data validation failed: Title is required and must be a string"
  else if 500 < nd.title.length then
    .error "Data validation failed: Title must be less than 500 characters"
  else if (nd.content.getD "") ≠ "" ∧ 100000 < (nd.content.getD "").length then
    .error "Data validation failed: Content must be less than 100,000 characters"
  else
    .ok { title := sanitizeString nd.title,
          content := if (nd.content.getD "") ≠ "" then
              sanitizeString (nd.content.getD "")
            else "",
          tags := nd.tags.getD [] }

/-- Format conversion toward MySQL for a note (syncPriority stripped,
synced set to native true). -/
def toRemoteNote (n : Note) : RemoteNote :=
  { id := n.id, title := n.title, content := n.content, tags := n.tags,
    createdAt := n.createdAt, updatedAt := n.updatedAt, synced := true }

/-- Format conversion toward MySQL for a file row (hash and syncPriority
stripped, synced set to native true). -/
def toRemoteFile (f : FileRec) : RemoteFile :=
  { id := f.id, originalName := f.originalName, filePath := f.filePath,
    fileSize := f.fileSize, mimeType := f.mimeType, noteId := f.noteId,
    createdAt := f.createdAt, synced := true }

/-- Primary-key-keyed insert-or-update into the MySQL Notes table. -/
def upsertRemoteNote (l : List RemoteNote) (n : RemoteNote) : List RemoteNote :=
  if l.any (fun m => m.id == n.id) then
    l.map (fun m => if m.id == n.id then n else m)
  else l ++ [n]

/-- Primary-key-keyed insert-or-update into the MySQL Files table. -/
def upsertRemoteFile (l : List RemoteFile) (f : RemoteFile) : List RemoteFile :=
  if l.any (fun m => m.id == f.id) then
    l.map (fun m => if m.id == f.id then f else m)
  else l ++ [f]

/-- OptimizedDatabaseManager.syncSingleNote with the remote outcome decided
by the oracle: on success the note is upserted remotely (traced) and its
SQLite row marked synced; a remote failure changes nothing and throws. -/
def syncSingleNote (st : ODBState) (oracle : String → Bool) (n : Note) :
    Except String ODBState :=
  if oracle n.id then
    .ok { st with
          mysqlNotes := upsertRemoteNote st.mysqlNotes (toRemoteNote n),
          sqliteNotes := st.sqliteNotes.map
            (fun m => if m.id == n.id then { m with synced := 1 } else m),
          remoteTrace := st.remoteTrace ++ [(n.id, n.syncPriority)] }
  else
    .error "remote upsert failed"

/-- OptimizedDatabaseManager.syncSingleFile, analogous to syncSingleNote. -/
def syncSingleFile (st : ODBState) (oracle : String → Bool) (f : FileRec) :
    Except String ODBState :=
  if oracle f.id then
    .ok { st with
          mysqlFiles := upsertRemoteFile st.mysqlFiles (toRemoteFile f),
          sqliteFiles := st.sqliteFiles.map
            (fun m => if m.id == f.id then { m with synced := 1 } else m),
          remoteTrace := st.remoteTrace ++ [(f.id, f.syncPriority)] }
  else
    .error "remote upsert failed"

/-- OptimizedDatabaseManager.syncNoteDeletion: best-effort remote cascade
delete of a note and its files. -/
def syncNoteDeletion (st : ODBState) (oracle : String → Bool) (noteId : String) :
    Except String ODBState :=
  if oracle noteId then
    .ok { st with
          mysqlFiles := st.mysqlFiles.filter (fun f => !(f.noteId == some noteId)),
          mysqlNotes := st.mysqlNotes.filter (fun n => !(n.id == noteId)) }
  else
    .error "remote destroy failed"

/-- The item passed to tryImmediateSync, mirroring its type switch. -/
inductive SyncItem where
  | note (n : Note)
  | file (f : FileRec)
  | deleteNote (id : String)
  deriving Repr

/-- OptimizedDatabaseManager.tryImmediateSync: when the probe reports the
network up and the manager believes it is online, attempt to replicate the
single item; any remote failure is caught, flips isOnline to false and is
never rethrown. -/
def tryImmediateSync (st : ODBState) (netOk : Bool) (oracle : String → Bool)
    (item : SyncItem) : ODBState :=
  if netOk && st.isOnline then
    match item with
    | .note n =>
      match syncSingleNote st oracle n with
      | .ok st' => st'
      | .error _ => { st with isOnline := false }
    | .file f =>
      match syncSingleFile st oracle f with
      | .ok st' => st'
      | .error _ => { st with isOnline := false }
    | .deleteNote noteId =>
      match syncNoteDeletion st oracle noteId with
      | .ok st' => st'
      | .error _ => { st with isOnline := false }
  else st

/-- OptimizedDatabaseManager.createNote: validate, insert the new row into
SQLite with synced = 0, attempt an opportunistic immediate sync, and return
the created record object (whose synced field is the inserted 0). The
uuid-generated id and the clock value are supplied by the caller. -/
def createNote (st : ODBState) (nd : NoteData) (priority : Nat) (id : String)
    (now : Nat) (netOk : Bool) (oracle : String → Bool) :
    Except String (ODBState × Note) :=
  match validateNoteData nd with
  | .error e => .error e
  | .ok v =>
    let note : Note :=
      { id := id, title := v.title, content := v.content, tags := v.tags,
        createdAt := now, updatedAt := now, synced := 0,
        syncPriority := priority }
    let st1 := { st with sqliteNotes := st.sqliteNotes ++ [note] }
    let st2 := tryImmediateSync st1 netOk oracle (.note note)
    .ok (st2, note)

/-- Insert a note into a list kept ordered by updatedAt descending. -/
def insertByUpdatedAtDesc (n : Note) : List Note → List Note
  | [] => [n]
  | m :: ms =>
    if n.updatedAt ≤ m.updatedAt then m :: insertByUpdatedAtDesc n ms
    else n :: m :: ms

/-- ORDER BY updatedAt DESC over a list of notes. -/
def sortByUpdatedAtDesc (l : List Note) : List Note :=
  l.foldr insertByUpdatedAtDesc []

/-- OptimizedDatabaseManager.getAllNotes: every SQLite note, ordered by
updatedAt descending; reads only local state. -/
def getAllNotes (st : ODBState) : List Note :=
  sortByUpdatedAtDesc st.sqliteNotes


/-- One iteration sequence of the for-loop over unsynced notes inside
syncByPriority: stop at the first remote failure (the thrown error aborts
the loop), carrying the state reached so far on both outcomes. -/
def syncNotesLoop (st : ODBState) (oracle : String → Bool) :
    List Note → Except ODBState ODBState
  | [] => .ok st
  | n :: ns =>
    match syncSingleNote st oracle n with
    | .ok st' => syncNotesLoop st' oracle ns
    | .error _ => .error st

/-- The for-loop over unsynced files inside syncByPriority. -/
def syncFilesLoop (st : ODBState) (oracle : String → Bool) :
    List FileRec → Except ODBState ODBState
  | [] => .ok st
  | f :: fs =>
    match syncSingleFile st oracle f with
    | .ok st' => syncFilesLoop st' oracle fs
    | .error _ => .error st

/-- The WHERE synced = 0 AND syncPriority = p ... LIMIT batchSize selection
over the Notes table. -/
def unsyncedNotesBatch (st : ODBState) (p : Nat) : List Note :=
  (st.sqliteNotes.filter (fun n => n.synced == 0 && n.syncPriority == p)).take
    st.batchSize

/-- The batched selection over the Files table. -/
def unsyncedFilesBatch (st : ODBState) (p : Nat) : List FileRec :=
  (st.sqliteFiles.filter (fun f => f.synced == 0 && f.syncPriority == p)).take
    st.batchSize

/-- OptimizedDatabaseManager.syncByPriority: sync one batch of unsynced
notes of the given priority, then one batch of unsynced files; an error
escapes with the partial state. -/
def syncByPriority (st : ODBState) (oracle oracleF : String → Bool) (p : Nat) :
    Except ODBState ODBState :=
  match syncNotesLoop st oracle (unsyncedNotesBatch st p) with
  | .error stE => .error stE
  | .ok st1 => syncFilesLoop st1 oracleF (unsyncedFilesBatch st1 p)

/-- The try-block of syncPendingDataOptimized: high, then medium, then low
priority, each aborting the remainder on failure. -/
def prioritySweep (st : ODBState) (oracle oracleF : String → Bool) :
    Except ODBState ODBState :=
  (syncByPriority st oracle oracleF 3).bind fun st3 =>
    (syncByPriority st3 oracle oracleF 2).bind fun st2 =>
      syncByPriority st2 oracle oracleF 1

/-- OptimizedDatabaseManager.syncPendingDataOptimized: skip when the probe
or the isOnline flag says offline; otherwise run the priority sweep. On
success reset retryCount; on failure flip offline, bump retryCount and,
while retryCount has not passed maxRetries, schedule a startBackgroundSync
retry after 2 ^ retryCount * 1000 ms (returned as the second component). -/
def syncPendingDataOptimized (st : ODBState) (netOk : Bool)
    (oracle oracleF : String → Bool) : ODBState × Option Nat :=
  if netOk && st.isOnline then
    match prioritySweep st oracle oracleF with
    | .ok stS => ({ stS with retryCount := 0 }, none)
    | .error stE =>
      let st2 := { stE with isOnline := false, retryCount := stE.retryCount + 1 }
      if st2.retryCount ≤ st2.maxRetries then
        (st2, some (2 ^ st2.retryCount * 1000))
      else (st2, none)
  else (st, none)

/-- OptimizedDatabaseManager.startBackgroundSync: the boolean in-progress
guard around one sweep (the flag is restored by the finally block, so the
net state change is that of the sweep). -/
def startBackgroundSync (st : ODBState) (netOk : Bool)
    (oracle oracleF : String → Bool) : ODBState × Option Nat :=
  if st.syncInProgress then (st, none)
  else syncPendingDataOptimized st netOk oracle oracleF

/-- One tick of startPeriodicStatusCheck: a failed network probe or a
failed MySQL authenticate flips offline; a successful authenticate while
offline flips online and triggers a background sync. The second component
is the backoff delay the triggered sweep may have scheduled. -/
def periodicStatusCheck (st : ODBState) (netOk authOk : Bool)
    (oracle oracleF : String → Bool) : ODBState × Option Nat :=
  if !netOk then ({ st with isOnline := false }, none)
  else if authOk then
    if !st.isOnline then
      startBackgroundSync { st with isOnline := true } netOk oracle oracleF
    else (st, none)
  else ({ st with isOnline := false }, none)

/-- ASCII lowercase folding, the case equivalence of SQLite LIKE. -/
def asciiLower (c : Char) : Char :=
  if 65 ≤ c.toNat ∧ c.toNat ≤ 90 then Char.ofNat (c.toNat + 32) else c

/-- Fuel-indexed kernel of the LIKE matcher; any fuel at least the summed
lengths gives the same result, and structural recursion on the fuel keeps
the matcher computable by kernel reduction. -/
def likeMatchF : Nat → List Char → List Char → Bool
  | 0, ps, s => ps.isEmpty && s.isEmpty
  | fuel + 1, ps, s =>
    match ps, s with
    | [], s => s.isEmpty
    | p :: ps', [] => if p = '%' then likeMatchF fuel ps' [] else false
    | p :: ps', b :: s' =>
      if p = '%' then
        likeMatchF fuel ps' (b :: s') || likeMatchF fuel (p :: ps') s'
      else
        (p == '_' || asciiLower p == asciiLower b) && likeMatchF fuel ps' s'

/-- SQLite LIKE pattern matching over characters: percent matches any
sequence, underscore any single character, and ordinary characters match
up to ASCII case folding. -/
def likeMatch (ps s : List Char) : Bool :=
  likeMatchF (ps.length + s.length) ps s

/-- The LIKE pattern built by searchNotes for a query. -/
def searchPattern (query : String) : List Char :=
  '%' :: (query.toList ++ ['%'])

/-- OptimizedDatabaseManager.searchNotes: SQLite rows whose title or
content matches LIKE percent-query-percent, ordered by updatedAt
descending; reads only local state. -/
def searchNotes (st : ODBState) (query : String) : List Note :=
  sortByUpdatedAtDesc (st.sqliteNotes.filter
    (fun n => likeMatch (searchPattern query) n.title.toList ||
      likeMatch (searchPattern query) n.content.toList))

/-- Case-insensitive prefix test used to specify substring containment. -/
def prefixCI : List Char → List Char → Bool
  | [], _ => true
  | _ :: _, [] => false
  | a :: q, b :: s => asciiLower a == asciiLower b && prefixCI q s

/-- Case-insensitive substring containment (ASCII folding). -/
def substrCI (q : List Char) : List Char → Bool
  | [] => prefixCI q []
  | b :: s' => prefixCI q (b :: s') || substrCI q s'

/-- Modelled from the spec: search performs a case-insensitive substring
match over title and content and returns matches ordered by updatedAt
descending. Stated for comparison against searchNotes. -/
def specSearchNotes (st : ODBState) (query : String) : List Note :=
  sortByUpdatedAtDesc (st.sqliteNotes.filter
    (fun n => substrCI query.toList n.title.toList ||
      substrCI query.toList n.content.toList))

/-- Both outcomes of a sync step carry a state; project it. -/
def outState : Except ODBState ODBState → ODBState
  | .ok st => st
  | .error st => st

/-- The control fields the sync loops never touch. -/
def sameCtl (a b : ODBState) : Prop :=
  a.isOnline = b.isOnline ∧ a.retryCount = b.retryCount ∧
    a.maxRetries = b.maxRetries ∧ a.batchSize = b.batchSize ∧
    a.syncInProgress = b.syncInProgress

/-- A query string free of the LIKE wildcard characters. -/
def noWildcards (q : List Char) : Bool :=
  q.all (fun c => !(c == '%') && !(c == '_'))

end ODB

namespace DBM

/-- The terminal socket event of the legacy DatabaseManager probe. -/
inductive SocketEvent where
  | connected
  | timedOut
  | errored
  deriving Repr, DecidableEq

/-- DatabaseManager.checkNetworkConnection: a 3-second-timeout TCP connect
to 8.8.8.8:53; connect resolves true, timeout and every error resolve
false, and nothing is thrown. -/
def checkNetworkConnection (ev : SocketEvent) : Bool :=
  match ev with
  | .connected => true
  | .timedOut => false
  | .errored => false

end DBM

/-- Empty FileHandler state used by the concrete runs. -/
def fhEmpty : FileHandler.FHState :=
  { activeUploads := [], disk := [], timers := [], now := 0 }

/-- A fallback session object for total projections. -/
def fhDummySession : FileHandler.UploadSession :=
  { fileName := "", tempPath := none, finalPath := none, totalSize := 0,
    uploadedSize := 0, chunks := [], mimeType := "", hashCtx := MD5.initCtx,
    hashFinalized := false, status := "" }

/-- Chunked session initialized with a declared totalSize of 1 byte. -/
def fhInit : FileHandler.FHState :=
  (FileHandler.initializeChunkedUpload fhEmpty "u1" "f.bin" "f.bin" 1
    "application/octet-stream").1

/-- The state after appending one 2-byte chunk to that session. -/
def fhChunked : FileHandler.FHState :=
  match FileHandler.uploadChunk fhInit "u1" [7, 7] 0 with
  | .ok p => p.1
  | .error _ => fhInit

/-- The session object tracked after the append. -/
def fhSession : FileHandler.UploadSession :=
  (FileHandler.getUploadProgress fhChunked "u1").getD fhDummySession

/-- The state after finalizing that session. -/
def fhFinalized : FileHandler.FHState :=
  match FileHandler.finalizeChunkedUpload fhChunked "u1" with
  | .ok p => p.1
  | .error _ => fhChunked

/-- An OptimizedDatabaseManager state with the constructor defaults
(maxRetries 3, batchSize 5) and empty stores, believed online. -/
def odbBase : ODB.ODBState :=
  { isOnline := true, sqliteNotes := [], sqliteFiles := [], mysqlNotes := [],
    mysqlFiles := [], remoteTrace := [], retryCount := 0, maxRetries := 3,
    batchSize := 5, syncInProgress := false }

/-- A minimal unsynced note with the given id and priority. -/
def mkNote (id : String) (p : Nat) : ODB.Note :=
  { id := id, title := id, content := "", tags := [], createdAt := 0,
    updatedAt := 0, synced := 0, syncPriority := p }

/-- Remote oracle: every call succeeds. -/
def allOk : String → Bool := fun _ => true

/-- Remote oracle: every call fails. -/
def allFail : String → Bool := fun _ => false

/-- Remote oracle failing exactly on the record with id bad. -/
def oracleNotBad : String → Bool := fun s => s != "bad"

/-- Six HIGH-priority unsynced notes and one MEDIUM one, against the
reference batch size of 5. -/
def odbC2 : ODB.ODBState :=
  { odbBase with
    sqliteNotes := [mkNote "h1" 3, mkNote "h2" 3, mkNote "h3" 3,
      mkNote "h4" 3, mkNote "h5" 3, mkNote "h6" 3, mkNote "m1" 2] }

/-- Offline state with the retry budget already exhausted and one pending
HIGH-priority note. -/
def odbC8 : ODB.ODBState :=
  { odbBase with
    isOnline := false
    retryCount := 4
    sqliteNotes := [mkNote "n1" 3] }

/-- Online state with a single pending HIGH-priority note. -/
def odbC8b : ODB.ODBState :=
  { odbBase with sqliteNotes := [mkNote "n1" 3] }

/-- The state a failing sweep over odbC8b leaves behind. -/
def odbC8bErr : ODB.ODBState :=
  ODB.outState (ODB.prioritySweep odbC8b allFail allFail)

/-- The state a clean sweep over odbBase leaves behind. -/
def odbBaseOk : ODB.ODBState :=
  ODB.outState (ODB.prioritySweep odbBase allOk allOk)

/-- A note whose title is abc, for the search runs. -/
def noteAbc : ODB.Note :=
  { id := "a1", title := "abc", content := "", tags := [], createdAt := 0,
    updatedAt := 0, synced := 0, syncPriority := 1 }

/-- A local store holding just the abc note. -/
def odbC9 : ODB.ODBState := { odbBase with sqliteNotes := [noteAbc] }

namespace MD5

/-- The fuel of processBlocksF is irrelevant above the list length. -/
theorem processBlocksF_ge (f1 : Nat) :
    ∀ (f2 : Nat) (h : Digest) (l : List Nat), l.length ≤ f1 → l.length ≤ f2 →
      processBlocksF f1 h l = processBlocksF f2 h l := by
  induction f1 with
  | zero =>
    intro f2 h l h1 _h2
    have hnil : l = [] := List.length_eq_zero.mp (Nat.le_zero.mp h1)
    subst hnil
    cases f2 <;> simp [processBlocksF]
  | succ f1 ih =>
    intro f2 h l h1 h2
    cases f2 with
    | zero =>
      have hnil : l = [] := List.length_eq_zero.mp (Nat.le_zero.mp h2)
      subst hnil
      simp [processBlocksF]
    | succ f2 =>
      simp only [processBlocksF]
      by_cases h64 : 64 ≤ l.length
      · simp only [if_pos h64]
        exact ih f2 _ (l.drop 64)
          (by simp only [List.length_drop]; omega)
          (by simp only [List.length_drop]; omega)
      · simp [h64]

/-- Unfolding of processBlocks when at least one full block is available. -/
theorem processBlocks_pos (h : Digest) (l : List Nat) (h64 : 64 ≤ l.length) :
    processBlocks h l = processBlocks (compress h (l.take 64)) (l.drop 64) := by
  unfold processBlocks
  obtain ⟨n, hn⟩ : ∃ n, l.length = n + 1 := ⟨l.length - 1, by omega⟩
  rw [hn]
  simp only [processBlocksF, if_pos h64]
  exact processBlocksF_ge n _ _ (l.drop 64)
    (by simp only [List.length_drop]; omega)
    (Nat.le_refl _)

/-- Unfolding of processBlocks when fewer than 64 bytes remain. -/
theorem processBlocks_neg (h : Digest) (l : List Nat) (h64 : ¬ 64 ≤ l.length) :
    processBlocks h l = (h, l) := by
  unfold processBlocks
  cases hl : l.length with
  | zero => simp [processBlocksF]
  | succ n => simp [processBlocksF, h64]

/-- Block consumption splits along list concatenation: feeding a ++ b is the
same as feeding a, then feeding the leftover of a followed by b. -/
theorem processBlocks_append (n : Nat) :
    ∀ (a : List Nat), a.length ≤ n → ∀ (h : Digest) (b : List Nat),
      processBlocks h (a ++ b) =
        processBlocks (processBlocks h a).1 ((processBlocks h a).2 ++ b) := by
  induction n with
  | zero =>
    intro a ha h b
    have hnil : a = [] := List.length_eq_zero.mp (Nat.le_zero.mp ha)
    subst hnil
    rw [processBlocks_neg h [] (by simp)]
  | succ n ih =>
    intro a ha h b
    by_cases h64 : 64 ≤ a.length
    · have h64ab : 64 ≤ (a ++ b).length := by
        simp only [List.length_append]
        omega
      rw [processBlocks_pos h (a ++ b) h64ab, processBlocks_pos h a h64,
        List.take_append_of_le_length h64, List.drop_append_of_le_length h64]
      have hlen : (a.drop 64).length ≤ n := by
        simp only [List.length_drop]
        omega
      exact ih (a.drop 64) hlen (compress h (a.take 64)) b
    · rw [processBlocks_neg h a h64]

/-- A fresh context is the context of the empty byte sequence. -/
theorem initCtx_eq_ctxOf : initCtx = ctxOf [] := by
  simp [initCtx, ctxOf, processBlocks_neg initDigest [] (by simp)]

/-- Feeding further bytes extends the determined context. -/
theorem update_ctxOf (m bytes : List Nat) :
    update (ctxOf m) bytes = ctxOf (m ++ bytes) := by
  have happ := processBlocks_append m.length m (Nat.le_refl _) initDigest bytes
  simp [update, ctxOf, happ]

/-- Folding update over a chunk list accumulates the joined bytes. -/
theorem foldl_update_ctxOf (chunks : List (List Nat)) :
    ∀ (m : List Nat), chunks.foldl update (ctxOf m) = ctxOf (m ++ chunks.flatten) := by
  induction chunks with
  | nil => intro m; simp
  | cons c cs ih =>
    intro m
    simp only [List.foldl_cons, List.flatten_cons, update_ctxOf]
    rw [ih (m ++ c), List.append_assoc]

/-- Finishing the context of m gives the one-shot digest of m. -/
theorem final_ctxOf (m : List Nat) : final (ctxOf m) = md5 m := by
  have happ := processBlocks_append m.length m (Nat.le_refl _) initDigest
    (padBytes m.length)
  simp [final, ctxOf, md5, happ]

end MD5

namespace ODB

/-- The fuel of likeMatchF is irrelevant above the summed lengths. -/
theorem likeMatchF_ge (f1 : Nat) :
    ∀ (f2 : Nat) (ps s : List Char), ps.length + s.length ≤ f1 →
      ps.length + s.length ≤ f2 → likeMatchF f1 ps s = likeMatchF f2 ps s := by
  induction f1 with
  | zero =>
    intro f2 ps s h1 _h2
    have hps : ps = [] := List.length_eq_zero.mp (by omega)
    have hs : s = [] := List.length_eq_zero.mp (by omega)
    subst hps; subst hs
    cases f2 <;> simp [likeMatchF]
  | succ f1 ih =>
    intro f2 ps s h1 h2
    cases f2 with
    | zero =>
      have hps : ps = [] := List.length_eq_zero.mp (by omega)
      have hs : s = [] := List.length_eq_zero.mp (by omega)
      subst hps; subst hs
      simp [likeMatchF]
    | succ f2 =>
      cases ps with
      | nil => simp [likeMatchF]
      | cons p ps' =>
        cases s with
        | nil =>
          simp only [likeMatchF]
          by_cases hp : p = '%'
          · simp only [if_pos hp]
            exact ih f2 ps' []
              (by simp only [List.length_cons, List.length_nil] at h1 ⊢; omega)
              (by simp only [List.length_cons, List.length_nil] at h2 ⊢; omega)
          · simp [hp]
        | cons b s' =>
          simp only [likeMatchF]
          by_cases hp : p = '%'
          · simp only [if_pos hp]
            rw [ih f2 ps' (b :: s')
                (by simp only [List.length_cons] at h1 ⊢; omega)
                (by simp only [List.length_cons] at h2 ⊢; omega),
              ih f2 (p :: ps') s'
                (by simp only [List.length_cons] at h1 ⊢; omega)
                (by simp only [List.length_cons] at h2 ⊢; omega)]
          · simp only [if_neg hp]
            rw [ih f2 ps' s'
              (by simp only [List.length_cons] at h1 ⊢; omega)
              (by simp only [List.length_cons] at h2 ⊢; omega)]

/-- Normalize likeMatch to an arbitrary sufficient fuel. -/
theorem likeMatch_eq_likeMatchF (f : Nat) (ps s : List Char)
    (hf : ps.length + s.length ≤ f) : likeMatch ps s = likeMatchF f ps s :=
  likeMatchF_ge (ps.length + s.length) f ps s (Nat.le_refl _) hf

/-- Unfolding: the empty pattern matches exactly the empty string. -/
theorem likeMatch_nil (s : List Char) : likeMatch [] s = s.isEmpty := by
  cases s <;> simp [likeMatch, likeMatchF]

/-- Unfolding: a leading percent against the empty string just drops the
percent. -/
theorem likeMatch_pct_nilstr (ps : List Char) :
    likeMatch ('%' :: ps) [] = likeMatch ps [] := by
  rw [likeMatch_eq_likeMatchF (ps.length + 1) ('%' :: ps) []
    (by simp only [List.length_cons, List.length_nil]; omega)]
  simp only [likeMatchF, if_pos rfl]
  exact (likeMatch_eq_likeMatchF ps.length ps [] (by simp)).symm

/-- One-step unfolding of likeMatchF with symbolic fuel: percent head,
nonempty string. -/
theorem likeMatchF_succ_pct_cons (f : Nat) (ps : List Char) (b : Char)
    (s' : List Char) :
    likeMatchF (f + 1) ('%' :: ps) (b :: s') =
      (likeMatchF f ps (b :: s') || likeMatchF f ('%' :: ps) s') := by
  simp [likeMatchF]

/-- One-step unfolding of likeMatchF with symbolic fuel: literal head,
nonempty string. -/
theorem likeMatchF_succ_lit_cons (f : Nat) (p : Char) (ps : List Char)
    (b : Char) (s' : List Char) (hp : p ≠ '%') :
    likeMatchF (f + 1) (p :: ps) (b :: s') =
      ((p == '_' || asciiLower p == asciiLower b) && likeMatchF f ps s') := by
  simp [likeMatchF, hp]

/-- Unfolding: a leading percent either matches here or skips one
character of the string. -/
theorem likeMatch_pct_cons (ps : List Char) (b : Char) (s' : List Char) :
    likeMatch ('%' :: ps) (b :: s') =
      (likeMatch ps (b :: s') || likeMatch ('%' :: ps) s') := by
  rw [likeMatch_eq_likeMatchF (ps.length + s'.length + 1 + 1) ('%' :: ps) (b :: s')
      (by simp only [List.length_cons]; omega),
    likeMatchF_succ_pct_cons,
    (likeMatch_eq_likeMatchF (ps.length + s'.length + 1) ps (b :: s')
      (by simp only [List.length_cons]; omega)).symm,
    (likeMatch_eq_likeMatchF (ps.length + s'.length + 1) ('%' :: ps) s'
      (by simp only [List.length_cons]; omega)).symm]

/-- Unfolding: a non-percent pattern head rejects the empty string. -/
theorem likeMatch_lit_nil (p : Char) (ps : List Char) (hp : p ≠ '%') :
    likeMatch (p :: ps) [] = false := by
  rw [likeMatch_eq_likeMatchF (ps.length + 1) (p :: ps) []
    (by simp only [List.length_cons, List.length_nil]; omega)]
  simp [likeMatchF, hp]

/-- Unfolding: a non-percent pattern head consumes one character. -/
theorem likeMatch_lit_cons (p : Char) (ps : List Char) (b : Char)
    (s' : List Char) (hp : p ≠ '%') :
    likeMatch (p :: ps) (b :: s') =
      ((p == '_' || asciiLower p == asciiLower b) && likeMatch ps s') := by
  rw [likeMatch_eq_likeMatchF (ps.length + s'.length + 1 + 1) (p :: ps) (b :: s')
      (by simp only [List.length_cons]; omega),
    likeMatchF_succ_lit_cons (ps.length + s'.length + 1) p ps b s' hp,
    (likeMatch_eq_likeMatchF (ps.length + s'.length + 1) ps s' (by omega)).symm]

/-- A single percent matches every string. -/
theorem likeMatch_pct_nil (s : List Char) : likeMatch ['%'] s = true := by
  induction s with
  | nil => rw [likeMatch_pct_nilstr, likeMatch_nil]; rfl
  | cons b s' ih => rw [likeMatch_pct_cons]; simp [ih]

/-- For a wildcard-free pattern, pattern-then-percent is the
case-insensitive prefix test. -/
theorem likeMatch_trailing (q : List Char) (hq : noWildcards q = true) :
    ∀ s : List Char, likeMatch (q ++ ['%']) s = prefixCI q s := by
  induction q with
  | nil => intro s; simp [likeMatch_pct_nil, prefixCI]
  | cons p q ih =>
    intro s
    have hq3 : ¬(p == '%') = true ∧ ¬(p == '_') = true ∧ noWildcards q = true := by
      simp only [noWildcards, List.all_cons, Bool.and_eq_true, Bool.not_eq_true',
        Bool.not_eq_true] at hq ⊢
      exact ⟨by simp [hq.1.1], by simp [hq.1.2], hq.2⟩
    have hp : p ≠ '%' := by
      intro hcon
      exact hq3.1 (by simp [hcon])
    have hpu : (p == '_') = false := by
      simpa using hq3.2.1
    rw [List.cons_append]
    cases s with
    | nil => rw [likeMatch_lit_nil p (q ++ ['%']) hp]; rfl
    | cons b s' =>
      rw [likeMatch_lit_cons p (q ++ ['%']) b s' hp]
      simp only [prefixCI, hpu, Bool.false_or]
      rw [ih hq3.2.2 s']

/-- For a wildcard-free query, the percent-query-percent LIKE pattern is
exactly the case-insensitive substring test. -/
theorem likeMatch_substr (q : List Char) (hq : noWildcards q = true) :
    ∀ s : List Char, likeMatch ('%' :: (q ++ ['%'])) s = substrCI q s := by
  intro s
  induction s with
  | nil =>
    rw [likeMatch_pct_nilstr, likeMatch_trailing q hq]
    rfl
  | cons b s' ih =>
    rw [likeMatch_pct_cons]
    simp only [likeMatch_trailing q hq, ih, substrCI]

end ODB

namespace FileHandler

/-- Setting a key makes it retrievable. -/
theorem getEntry_setEntry_self {α : Type} (m : List (String × α)) (k : String)
    (v : α) : getEntry (setEntry m k v) k = some v := by
  induction m with
  | nil => simp [setEntry, getEntry]
  | cons p rest ih =>
    obtain ⟨k', v'⟩ := p
    by_cases h : k' = k
    · simp [setEntry, h, getEntry]
    · simp [setEntry, h, getEntry, ih]

/-- Setting one key leaves the others unchanged. -/
theorem getEntry_setEntry_ne {α : Type} (m : List (String × α)) (k k' : String)
    (v : α) (h : k' ≠ k) : getEntry (setEntry m k v) k' = getEntry m k' := by
  induction m with
  | nil => simp [setEntry, getEntry, Ne.symm h]
  | cons p rest ih =>
    obtain ⟨k0, v0⟩ := p
    by_cases h0 : k0 = k
    · subst h0
      simp [setEntry, getEntry, Ne.symm h]
    · simp only [setEntry, if_neg h0, getEntry]
      by_cases h1 : k0 = k'
      · simp [h1]
      · simp [h1, ih]

/-- Removing a key makes it unretrievable. -/
theorem getEntry_removeEntry_self {α : Type} (m : List (String × α))
    (k : String) : getEntry (removeEntry m k) k = none := by
  induction m with
  | nil => simp [removeEntry, getEntry]
  | cons p rest ih =>
    obtain ⟨k', v'⟩ := p
    by_cases h : k' = k
    · simpa [removeEntry, List.filter_cons, h] using ih
    · simpa [removeEntry, List.filter_cons, h, getEntry] using ih

/-- Removing one key leaves the others unchanged. -/
theorem getEntry_removeEntry_ne {α : Type} (m : List (String × α))
    (k k' : String) (h : k' ≠ k) :
    getEntry (removeEntry m k) k' = getEntry m k' := by
  induction m with
  | nil => simp [removeEntry, getEntry]
  | cons p rest ih =>
    obtain ⟨k0, v0⟩ := p
    by_cases h0 : k0 = k
    · subst h0
      simpa [removeEntry, List.filter_cons, getEntry, Ne.symm h] using ih
    · by_cases h1 : k0 = k'
      · simp [removeEntry, List.filter_cons, h0, getEntry, h1, h]
      · simpa [removeEntry, List.filter_cons, h0, getEntry, h1] using ih

/-- The timer fold only ever removes entries: a missing key stays missing. -/
theorem getEntry_timerFold_none {α : Type} (now : Nat)
    (timers : List (Nat × String)) :
    ∀ (m : List (String × α)) (key : String), getEntry m key = none →
      getEntry (timers.foldl
        (fun m p => if p.1 ≤ now then removeEntry m p.2 else m) m) key = none := by
  induction timers with
  | nil => intro m key h; exact h
  | cons p rest ih =>
    intro m key h
    simp only [List.foldl_cons]
    apply ih
    by_cases hd : p.1 ≤ now
    · simp only [if_pos hd]
      by_cases he : key = p.2
      · rw [he]; exact getEntry_removeEntry_self m p.2
      · rw [getEntry_removeEntry_ne m p.2 key he]; exact h
    · simpa [hd] using h

/-- A due timer in the list removes its key from the map. -/
theorem getEntry_timerFold_due {α : Type} (now : Nat)
    (timers : List (Nat × String)) :
    ∀ (m : List (String × α)) (t : Nat) (key : String),
      (t, key) ∈ timers → t ≤ now →
      getEntry (timers.foldl
        (fun m p => if p.1 ≤ now then removeEntry m p.2 else m) m) key = none := by
  induction timers with
  | nil =>
    intro m t key hmem _ht
    cases hmem
  | cons p rest ih =>
    intro m t key hmem ht
    simp only [List.foldl_cons]
    rcases List.mem_cons.mp hmem with heq | hrest
    · rw [← heq]
      simp only [if_pos ht]
      exact getEntry_timerFold_none now rest (removeEntry m key) key
        (getEntry_removeEntry_self m key)
    · exact ih _ t key hrest ht

end FileHandler

namespace ODB

/-- sameCtl is reflexive. -/
theorem sameCtl_refl (a : ODBState) : sameCtl a a :=
  ⟨rfl, rfl, rfl, rfl, rfl⟩

/-- sameCtl is transitive. -/
theorem sameCtl_trans {a b c : ODBState} (h1 : sameCtl a b) (h2 : sameCtl b c) :
    sameCtl a c :=
  ⟨h1.1.trans h2.1, h1.2.1.trans h2.2.1, h1.2.2.1.trans h2.2.2.1,
    h1.2.2.2.1.trans h2.2.2.2.1, h1.2.2.2.2.trans h2.2.2.2.2⟩

/-- A successful single-note sync appends exactly one trace entry and
preserves the control fields. -/
theorem syncSingleNote_ok (st : ODBState) (oracle : String → Bool) (n : Note)
    (st' : ODBState) (h : syncSingleNote st oracle n = .ok st') :
    st'.remoteTrace = st.remoteTrace ++ [(n.id, n.syncPriority)] ∧
      sameCtl st' st := by
  by_cases ho : oracle n.id
  · simp only [syncSingleNote, if_pos ho, Except.ok.injEq] at h
    subst h
    exact ⟨rfl, sameCtl_refl _⟩
  · simp [syncSingleNote, ho] at h

/-- A failed single-note sync happens exactly when the oracle rejects. -/
theorem syncSingleNote_error (st : ODBState) (oracle : String → Bool) (n : Note)
    (e : String) (h : syncSingleNote st oracle n = .error e) :
    oracle n.id = false := by
  by_cases ho : oracle n.id
  · simp [syncSingleNote, ho] at h
  · simpa using ho

/-- A successful single-file sync appends exactly one trace entry and
preserves the control fields. -/
theorem syncSingleFile_ok (st : ODBState) (oracle : String → Bool) (f : FileRec)
    (st' : ODBState) (h : syncSingleFile st oracle f = .ok st') :
    st'.remoteTrace = st.remoteTrace ++ [(f.id, f.syncPriority)] ∧
      sameCtl st' st := by
  by_cases ho : oracle f.id
  · simp only [syncSingleFile, if_pos ho, Except.ok.injEq] at h
    subst h
    exact ⟨rfl, sameCtl_refl _⟩
  · simp [syncSingleFile, ho] at h

/-- The note loop of a tier: its outcome state extends the trace only with
entries of processed notes and preserves the control fields. -/
theorem syncNotesLoop_out (oracle : String → Bool) :
    ∀ (ns : List Note) (st : ODBState),
      sameCtl (outState (syncNotesLoop st oracle ns)) st ∧
      ∃ l, (outState (syncNotesLoop st oracle ns)).remoteTrace =
          st.remoteTrace ++ l ∧
        ∀ e ∈ l, ∃ n, n ∈ ns ∧ e = (n.id, n.syncPriority) := by
  intro ns
  induction ns with
  | nil =>
    intro st
    exact ⟨sameCtl_refl _, [], by simp [syncNotesLoop, outState], by simp⟩
  | cons n ns ih =>
    intro st
    cases hstep : syncSingleNote st oracle n with
    | error e =>
      simp only [syncNotesLoop, hstep, outState]
      exact ⟨sameCtl_refl _, [], by simp, by simp⟩
    | ok stN =>
      obtain ⟨htr, hctl⟩ := syncSingleNote_ok st oracle n stN hstep
      obtain ⟨ihctl, l, ihtr, ihmem⟩ := ih stN
      simp only [syncNotesLoop, hstep]
      refine ⟨sameCtl_trans ihctl hctl, (n.id, n.syncPriority) :: l, ?_, ?_⟩
      · rw [ihtr, htr, List.append_assoc]
        rfl
      · intro e he
        rcases List.mem_cons.mp he with heq | hl
        · exact ⟨n, by simp, heq⟩
        · obtain ⟨m, hm, hme⟩ := ihmem e hl
          exact ⟨m, by simp [hm], hme⟩

/-- The file loop of a tier, analogous to the note loop. -/
theorem syncFilesLoop_out (oracle : String → Bool) :
    ∀ (fs : List FileRec) (st : ODBState),
      sameCtl (outState (syncFilesLoop st oracle fs)) st ∧
      ∃ l, (outState (syncFilesLoop st oracle fs)).remoteTrace =
          st.remoteTrace ++ l ∧
        ∀ e ∈ l, ∃ f, f ∈ fs ∧ e = (f.id, f.syncPriority) := by
  intro fs
  induction fs with
  | nil =>
    intro st
    exact ⟨sameCtl_refl _, [], by simp [syncFilesLoop, outState], by simp⟩
  | cons f fs ih =>
    intro st
    cases hstep : syncSingleFile st oracle f with
    | error e =>
      simp only [syncFilesLoop, hstep, outState]
      exact ⟨sameCtl_refl _, [], by simp, by simp⟩
    | ok stF =>
      obtain ⟨htr, hctl⟩ := syncSingleFile_ok st oracle f stF hstep
      obtain ⟨ihctl, l, ihtr, ihmem⟩ := ih stF
      simp only [syncFilesLoop, hstep]
      refine ⟨sameCtl_trans ihctl hctl, (f.id, f.syncPriority) :: l, ?_, ?_⟩
      · rw [ihtr, htr, List.append_assoc]
        rfl
      · intro e he
        rcases List.mem_cons.mp he with heq | hl
        · exact ⟨f, by simp, heq⟩
        · obtain ⟨m, hm, hme⟩ := ihmem e hl
          exact ⟨m, by simp [hm], hme⟩

/-- Every note the batched selection returns carries the tier priority. -/
theorem mem_unsyncedNotesBatch (st : ODBState) (p : Nat) (n : Note)
    (h : n ∈ unsyncedNotesBatch st p) : n.syncPriority = p := by
  unfold unsyncedNotesBatch at h
  have h2 := List.mem_filter.mp (List.mem_of_mem_take h)
  have h3 := h2.2
  simp only [Bool.and_eq_true, beq_iff_eq] at h3
  exact h3.2

/-- Every file the batched selection returns carries the tier priority. -/
theorem mem_unsyncedFilesBatch (st : ODBState) (p : Nat) (f : FileRec)
    (h : f ∈ unsyncedFilesBatch st p) : f.syncPriority = p := by
  unfold unsyncedFilesBatch at h
  have h2 := List.mem_filter.mp (List.mem_of_mem_take h)
  have h3 := h2.2
  simp only [Bool.and_eq_true, beq_iff_eq] at h3
  exact h3.2

/-- One tier of the sweep: the trace grows only by entries of that tier
and the control fields survive. -/
theorem syncByPriority_out (st : ODBState) (oracle oracleF : String → Bool)
    (p : Nat) :
    sameCtl (outState (syncByPriority st oracle oracleF p)) st ∧
    ∃ l, (outState (syncByPriority st oracle oracleF p)).remoteTrace =
        st.remoteTrace ++ l ∧
      ∀ e ∈ l, e.2 = p := by
  unfold syncByPriority
  cases hn : syncNotesLoop st oracle (unsyncedNotesBatch st p) with
  | error stE =>
    have hout := syncNotesLoop_out oracle (unsyncedNotesBatch st p) st
    rw [hn] at hout
    obtain ⟨hctl, l, htr, hmem⟩ := hout
    refine ⟨hctl, l, htr, ?_⟩
    intro e he
    obtain ⟨n, hnmem, hne⟩ := hmem e he
    rw [hne]
    exact mem_unsyncedNotesBatch st p n hnmem
  | ok st1 =>
    have hout := syncNotesLoop_out oracle (unsyncedNotesBatch st p) st
    rw [hn] at hout
    simp only [outState] at hout
    obtain ⟨hctl1, l1, htr1, hmem1⟩ := hout
    have hout2 := syncFilesLoop_out oracleF (unsyncedFilesBatch st1 p) st1
    obtain ⟨hctl2, l2, htr2, hmem2⟩ := hout2
    refine ⟨sameCtl_trans hctl2 hctl1, l1 ++ l2, ?_, ?_⟩
    · rw [htr2, htr1, List.append_assoc]
    · intro e he
      rcases List.mem_append.mp he with h1 | h2
      · obtain ⟨n, hnmem, hne⟩ := hmem1 e h1
        rw [hne]
        exact mem_unsyncedNotesBatch st p n hnmem
      · obtain ⟨f, hfmem, hfe⟩ := hmem2 e h2
        rw [hfe]
        have hbatch : f.syncPriority = p := mem_unsyncedFilesBatch st1 p f hfmem
        exact hbatch

/-- The whole priority sweep: the trace grows by a tier-3 segment, then a
tier-2 segment, then a tier-1 segment (later segments empty when an earlier
tier fails), and the control fields survive. -/
theorem prioritySweep_out (st : ODBState) (oracle oracleF : String → Bool) :
    sameCtl (outState (prioritySweep st oracle oracleF)) st ∧
    ∃ l3 l2 l1,
      (outState (prioritySweep st oracle oracleF)).remoteTrace =
        st.remoteTrace ++ (l3 ++ (l2 ++ l1)) ∧
      (∀ e ∈ l3, e.2 = 3) ∧ (∀ e ∈ l2, e.2 = 2) ∧ (∀ e ∈ l1, e.2 = 1) := by
  have hbo : ∀ (a : ODBState) (f : ODBState → Except ODBState ODBState),
      (Except.ok a).bind f = f a := fun _ _ => rfl
  have hbe : ∀ (e : ODBState) (f : ODBState → Except ODBState ODBState),
      (Except.error e).bind f = Except.error e := fun _ _ => rfl
  unfold prioritySweep
  cases h3 : syncByPriority st oracle oracleF 3 with
  | error stE =>
    have hout := syncByPriority_out st oracle oracleF 3
    rw [h3] at hout
    simp only [outState] at hout
    obtain ⟨hctl, l, htr, hmem⟩ := hout
    simp only [hbe, outState]
    exact ⟨hctl, l, [], [], by simpa using htr, hmem, by simp, by simp⟩
  | ok stA =>
    have houtA := syncByPriority_out st oracle oracleF 3
    rw [h3] at houtA
    simp only [outState] at houtA
    obtain ⟨hctlA, lA, htrA, hmemA⟩ := houtA
    simp only [hbo]
    cases h2 : syncByPriority stA oracle oracleF 2 with
    | error stE =>
      have hout := syncByPriority_out stA oracle oracleF 2
      rw [h2] at hout
      simp only [outState] at hout
      obtain ⟨hctl, l, htr, hmem⟩ := hout
      simp only [hbe, outState]
      refine ⟨sameCtl_trans hctl hctlA, lA, l, [], ?_, hmemA, hmem, by simp⟩
      rw [htr, htrA, List.append_assoc]
      simp
    | ok stB =>
      have houtB := syncByPriority_out stA oracle oracleF 2
      rw [h2] at houtB
      simp only [outState] at houtB
      obtain ⟨hctlB, lB, htrB, hmemB⟩ := houtB
      have houtC := syncByPriority_out stB oracle oracleF 1
      obtain ⟨hctlC, lC, htrC, hmemC⟩ := houtC
      simp only [hbo]
      refine ⟨sameCtl_trans hctlC (sameCtl_trans hctlB hctlA), lA, lB, lC, ?_,
        hmemA, hmemB, hmemC⟩
      rw [htrC, htrB, htrA, List.append_assoc, List.append_assoc]

end ODB

namespace ODB

/-- Membership in the descending insertion. -/
theorem mem_insertByUpdatedAtDesc (a n : Note) (l : List Note) :
    a ∈ insertByUpdatedAtDesc n l ↔ a = n ∨ a ∈ l := by
  induction l with
  | nil => simp [insertByUpdatedAtDesc]
  | cons m ms ih =>
    simp only [insertByUpdatedAtDesc]
    by_cases hc : n.updatedAt ≤ m.updatedAt
    · simp only [if_pos hc, List.mem_cons, ih]
      tauto
    · simp only [if_neg hc, List.mem_cons]

/-- Sorting by updatedAt descending preserves membership. -/
theorem mem_sortByUpdatedAtDesc (a : Note) (l : List Note) :
    a ∈ sortByUpdatedAtDesc l ↔ a ∈ l := by
  induction l with
  | nil => simp [sortByUpdatedAtDesc]
  | cons n ns ih =>
    simp only [sortByUpdatedAtDesc, List.foldr_cons] at ih ⊢
    rw [mem_insertByUpdatedAtDesc]
    simp [ih]

/-- Fail-fast in the note loop: once a record fails, the records after it
in the batch are not processed and leave no trace entries. -/
theorem syncNotesLoop_failfast (oracle : String → Bool) :
    ∀ (ns₁ : List Note) (st : ODBState) (n : Note) (ns₂ : List Note),
      (∀ m ∈ ns₁, oracle m.id = true) → oracle n.id = false →
      ∃ stE, syncNotesLoop st oracle (ns₁ ++ n :: ns₂) = .error stE ∧
        stE.remoteTrace = st.remoteTrace ++
          ns₁.map (fun m => (m.id, m.syncPriority)) := by
  intro ns₁
  induction ns₁ with
  | nil =>
    intro st n ns₂ _h hn
    refine ⟨st, ?_, by simp⟩
    simp [syncNotesLoop, syncSingleNote, hn]
  | cons m ms ih =>
    intro st n ns₂ hall hn
    have hm : oracle m.id = true := hall m (by simp)
    cases hstep : syncSingleNote st oracle m with
    | error e =>
      exact absurd (syncSingleNote_error st oracle m e hstep) (by simp [hm])
    | ok stM =>
      obtain ⟨htr, _hctl⟩ := syncSingleNote_ok st oracle m stM hstep
      obtain ⟨stE, hloop, htrE⟩ := ih stM n ns₂
        (fun x hx => hall x (by simp [hx])) hn
      refine ⟨stE, ?_, ?_⟩
      · simp only [List.cons_append, syncNotesLoop, hstep]
        exact hloop
      · rw [htrE, htr, List.map_cons, List.append_assoc]
        rfl

/-- A list of constant second components is pairwise ordered. -/
theorem pairwise_ge_const (p : Nat) (l : List (String × Nat))
    (h : ∀ e ∈ l, e.2 = p) :
    List.Pairwise (fun a b : String × Nat => b.2 ≤ a.2) l := by
  induction l with
  | nil => exact List.Pairwise.nil
  | cons e l ih =>
    refine List.Pairwise.cons (fun b hb => ?_)
      (ih (fun x hx => h x (List.mem_cons_of_mem e hx)))
    rw [h e (by simp), h b (by simp [hb])]

/-- Concatenated tier segments with priorities 3, 2, 1 are pairwise
ordered by descending priority. -/
theorem pairwise_ge_tiers (l3 l2 l1 : List (String × Nat))
    (h3 : ∀ e ∈ l3, e.2 = 3) (h2 : ∀ e ∈ l2, e.2 = 2)
    (h1 : ∀ e ∈ l1, e.2 = 1) :
    List.Pairwise (fun a b : String × Nat => b.2 ≤ a.2) (l3 ++ (l2 ++ l1)) := by
  apply List.pairwise_append.mpr
  refine ⟨pairwise_ge_const 3 l3 h3, List.pairwise_append.mpr
    ⟨pairwise_ge_const 2 l2 h2, pairwise_ge_const 1 l1 h1, ?_⟩, ?_⟩
  · intro a ha b hb
    rw [h2 a ha, h1 b hb]
    omega
  · intro a ha b hb
    rw [h3 a ha]
    rcases List.mem_append.mp hb with hb2 | hb1
    · rw [h2 b hb2]; omega
    · rw [h1 b hb1]; omega

end ODB

namespace FileHandler

/-- Advancing time past a pending timer removes the tracked session. -/
theorem advanceTime_due_none (st : FHState) (key : String) (t d : Nat)
    (hmem : (t, key) ∈ st.timers) (ht : t ≤ st.now + d) :
    getEntry (advanceTime st d).activeUploads key = none := by
  unfold advanceTime runDueTimers
  exact getEntry_timerFold_due (st.now + d) st.timers st.activeUploads t key
    hmem ht

/-- Dissection of a successful finalizeChunkedUpload: the session stays
tracked with status completed, and the scheduled cleanup removes it once
the 30-second delay has elapsed. -/
theorem finalize_ok_shape (st : FHState) (uploadId : String) (st' : FHState)
    (h : (exceptOk (finalizeChunkedUpload st uploadId)).map Prod.fst =
      some st') :
    (∃ u, getEntry st'.activeUploads uploadId = some u ∧
      u.status = "completed") ∧
    getEntry (advanceTime st' 30000).activeUploads uploadId = none := by
  cases hu : getEntry st.activeUploads uploadId with
  | none => simp [finalizeChunkedUpload, hu, exceptOk] at h
  | some u =>
    cases htp : u.tempPath with
    | none => simp [finalizeChunkedUpload, hu, htp, exceptOk] at h
    | some tp =>
      cases hfp : u.finalPath with
      | none => simp [finalizeChunkedUpload, hu, htp, hfp, exceptOk] at h
      | some fp =>
        cases hrn : renameDisk st.disk tp fp with
        | none => simp [finalizeChunkedUpload, hu, htp, hfp, hrn, exceptOk] at h
        | some disk2 =>
          simp only [finalizeChunkedUpload, hu, htp, hfp, hrn, exceptOk,
            Option.map_some', Option.some.injEq] at h
          subst h
          constructor
          · exact ⟨_, getEntry_setEntry_self st.activeUploads uploadId _, rfl⟩
          · apply advanceTime_due_none _ uploadId (st.now + cleanupDelay) 30000
            · simp
            · simp [cleanupDelay]

/-- Dissection of a successful finalizeChunkedUpload, session view: the
completed session keeps its temp path and carries a hash object on which
digest has already been called. -/
theorem finalize_ok_session (st : FHState) (uploadId : String) (st' : FHState)
    (h : (exceptOk (finalizeChunkedUpload st uploadId)).map Prod.fst =
      some st') :
    ∃ u tp, getEntry st'.activeUploads uploadId = some u ∧
      u.status = "completed" ∧ u.hashFinalized = true ∧
      u.tempPath = some tp := by
  cases hu : getEntry st.activeUploads uploadId with
  | none => simp [finalizeChunkedUpload, hu, exceptOk] at h
  | some u =>
    cases htp : u.tempPath with
    | none => simp [finalizeChunkedUpload, hu, htp, exceptOk] at h
    | some tp =>
      cases hfp : u.finalPath with
      | none => simp [finalizeChunkedUpload, hu, htp, hfp, exceptOk] at h
      | some fp =>
        cases hrn : renameDisk st.disk tp fp with
        | none =>
          simp [finalizeChunkedUpload, hu, htp, hfp, hrn, exceptOk] at h
        | some disk2 =>
          simp only [finalizeChunkedUpload, hu, htp, hfp, hrn, exceptOk,
            Option.map_some', Option.some.injEq] at h
          subst h
          exact ⟨_, tp, getEntry_setEntry_self st.activeUploads uploadId _,
            rfl, rfl, rfl⟩

end FileHandler

/-- C7: for every chunk decomposition of a byte content, the integrity hash
computed incrementally by the streamed path (saveFileStream, chunk-by-chunk
hash.update) equals the hash computed by the buffered path (saveFile, one
update over the whole buffer) on the same bytes. -/
theorem saveFileStreamHash_eq_saveFileHash (chunks : List (List Nat)) :
    FileHandler.saveFileStreamHash chunks =
      FileHandler.saveFileHash chunks.flatten := by
  unfold FileHandler.saveFileStreamHash FileHandler.saveFileHash
  rw [MD5.initCtx_eq_ctxOf, MD5.foldl_update_ctxOf, MD5.update_ctxOf]

/-- C5 counterexample: the optimized-manager probe resolves a dns error
whose code is not ENOTFOUND (here a timeout) to true, not false, contrary
to every error and every timeout maps to false. -/
theorem checkNetworkConnection_error_true :
    ODB.checkNetworkConnection (some { code := "ETIMEOUT" }) = true := by
  decide

/-- C5 amended: both probes are total boolean functions of the underlying
event; the legacy socket probe maps the timeout and every error to false,
while the optimized dns probe maps exactly the ENOTFOUND error to false and
any other error to true. -/
theorem checkNetworkConnection_mapping :
    (∀ ev, DBM.checkNetworkConnection ev = false ↔
      ev ≠ DBM.SocketEvent.connected) ∧
    (∀ res, ODB.checkNetworkConnection res = false ↔
      ∃ e, res = some e ∧ e.code = "ENOTFOUND") := by
  constructor
  · intro ev
    cases ev <;> simp [DBM.checkNetworkConnection]
  · intro res
    cases res with
    | none => simp [ODB.checkNetworkConnection]
    | some e =>
      by_cases h : e.code = "ENOTFOUND" <;>
        simp [ODB.checkNetworkConnection, h]

/-- C1 counterexample: a chunked session declared with totalSize 1 receives
a 2-byte chunk, yet finalizeChunkedUpload succeeds with a record of
fileSize 2 instead of failing with a size-mismatch error. -/
theorem finalize_succeeds_on_size_mismatch :
    ((FileHandler.exceptOk
        (FileHandler.finalizeChunkedUpload fhChunked "u1")).map
      (fun p => p.2.fileSize)) = some 2 ∧
    (FileHandler.getUploadProgress fhChunked "u1").map
      (fun u => u.totalSize) = some 1 := by
  exact ⟨rfl, rfl⟩

/-- C1 amended: finalizeChunkedUpload performs no size verification: for
any tracked chunked session whose temp file holds bs bytes, finalize
succeeds and returns a record whose fileSize is the byte count actually
appended, even when that count differs from the declared totalSize. -/
theorem finalize_ignores_declared_totalSize (st : FileHandler.FHState)
    (uploadId tp fp : String) (u : FileHandler.UploadSession) (bs : List Nat)
    (hu : FileHandler.getEntry st.activeUploads uploadId = some u)
    (htp : u.tempPath = some tp) (hfp : u.finalPath = some fp)
    (hbs : FileHandler.readDisk st.disk tp = some bs)
    (_hne : bs.length ≠ u.totalSize) :
    ∃ st' rec, FileHandler.finalizeChunkedUpload st uploadId =
        Except.ok (st', rec) ∧ rec.fileSize = bs.length := by
  have hrn : FileHandler.renameDisk st.disk tp fp =
      some (FileHandler.writeDisk (FileHandler.unlinkDisk st.disk tp) fp bs) := by
    simp [FileHandler.renameDisk, hbs]
  simp only [FileHandler.finalizeChunkedUpload, hu, htp, hfp, hrn]
  refine ⟨_, _, rfl, ?_⟩
  simp only [FileHandler.readDisk, FileHandler.writeDisk]
  rw [FileHandler.getEntry_setEntry_self]
  simp

/-- C1 amended, witness: the concrete mismatching session of the
counterexample run satisfies the amended statement. -/
theorem finalize_ignores_declared_totalSize_witness :
    ∃ st' rec, FileHandler.finalizeChunkedUpload fhChunked "u1" =
        Except.ok (st', rec) ∧ rec.fileSize = ([7, 7] : List Nat).length :=
  finalize_ignores_declared_totalSize fhChunked "u1" "temp/u1_f.bin"
    "uploads/f.bin" fhSession [7, 7] (by rfl) (by rfl) (by rfl) (by rfl)
    (by decide)

/-- C3 counterexample: a streamed upload of two chunks that errors after
the first chunk propagates the error, yet the partially-written destination
file (holding the first chunk) is still on disk afterwards. -/
theorem saveFileStream_leaves_partial_file :
    ((FileHandler.exceptErr (FileHandler.saveFileStream fhEmpty "s1" "g.bin"
        "g.bin" "application/octet-stream" [[1], [2]] (some 1))).map
      (fun p => FileHandler.readDisk p.1.disk "uploads/g.bin")) =
      some (some [1]) := by
  rfl

/-- C3 amended: on a mid-stream error the session is marked failed and the
error is propagated, but the partially-written destination file is not
deleted: it remains on disk holding the chunks written before the error. -/
theorem saveFileStream_error_retains_partial_file (st : FileHandler.FHState)
    (uploadId fileName originalName mimeType : String)
    (source : List (List Nat)) (k : Nat) (hk : k < source.length) :
    ∃ stE msg,
      FileHandler.saveFileStream st uploadId fileName originalName mimeType
          source (some k) = Except.error (stE, msg) ∧
      FileHandler.readDisk stE.disk ("uploads/" ++ fileName) =
        some (source.take k).flatten ∧
      ∃ u, FileHandler.getEntry stE.activeUploads uploadId = some u ∧
        u.status = "failed" := by
  simp only [FileHandler.saveFileStream, if_pos hk]
  refine ⟨_, _, rfl, ?_, ?_⟩
  · simp only [FileHandler.readDisk, FileHandler.writeDisk]
    rw [FileHandler.getEntry_setEntry_self]
  · exact ⟨_, FileHandler.getEntry_setEntry_self _ _ _, rfl⟩

/-- C3 amended, witness: the two-chunk run failing after one chunk leaves
uploads/g.bin on disk with the first chunk and a failed session. -/
theorem saveFileStream_error_retains_partial_file_witness :
    ∃ stE msg,
      FileHandler.saveFileStream fhEmpty "s1" "g.bin" "g.bin"
          "application/octet-stream" [[1], [2]] (some 1) =
        Except.error (stE, msg) ∧
      FileHandler.readDisk stE.disk ("uploads/" ++ "g.bin") =
        some (([[1], [2]] : List (List Nat)).take 1).flatten ∧
      ∃ u, FileHandler.getEntry stE.activeUploads "s1" = some u ∧
        u.status = "failed" :=
  saveFileStream_error_retains_partial_file fhEmpty "s1" "g.bin" "g.bin"
    "application/octet-stream" [[1], [2]] 1 (by decide)

/-- C6 counterexample: within the 30-second cleanup window after
finalizeChunkedUpload, an uploadChunk on the finalized session does not
fail with a session-not-found or terminal-session error and does not leave
the bytes unwritten: it appends the chunk to the temp path (re-creating the
temp file) and then fails with the crypto hash-finalized error, marking the
session failed. -/
theorem uploadChunk_after_finalize_appends_then_hash_error :
    ((FileHandler.exceptErr
        (FileHandler.uploadChunk fhFinalized "u1" [9] 1)).map
      (fun p => p.2)) = some "Digest already called" ∧
    ((FileHandler.exceptErr
        (FileHandler.uploadChunk fhFinalized "u1" [9] 1)).map
      (fun p => FileHandler.readDisk p.1.disk "temp/u1_f.bin")) =
      some (some [9]) ∧
    ((FileHandler.exceptErr
        (FileHandler.uploadChunk fhFinalized "u1" [9] 1)).map
      (fun p => (FileHandler.getUploadProgress p.1 "u1").map
        (fun u => u.status))) = some (some "failed") := by
  exact ⟨rfl, rfl, rfl⟩

/-- C6 amended: cancelUpload removes the session temp file and drops the
session, after which uploadChunk fails with the session-not-found error,
exactly as for an unknown uploadId; an uploadChunk on a finalized session
within the 30-second cleanup window instead appends the bytes to the temp
path and then fails with the crypto hash-finalized error, marking the
session failed; once the cleanup delay has removed the session, uploadChunk
fails with the session-not-found error. -/
theorem cancel_cleanup_and_terminal_appends :
    (∀ (st : FileHandler.FHState) (uploadId tp : String)
        (u : FileHandler.UploadSession),
      FileHandler.getEntry st.activeUploads uploadId = some u →
      u.tempPath = some tp →
      FileHandler.readDisk (FileHandler.cancelUpload st uploadId).1.disk tp =
          none ∧
      (FileHandler.cancelUpload st uploadId).2 = true ∧
      ∀ cd ci,
        FileHandler.uploadChunk (FileHandler.cancelUpload st uploadId).1
          uploadId cd ci =
        Except.error ((FileHandler.cancelUpload st uploadId).1,
          "Upload session not found")) ∧
    (∀ (st : FileHandler.FHState) (uploadId : String) (cd : List Nat)
        (ci : Nat),
      FileHandler.getEntry st.activeUploads uploadId = none →
      FileHandler.uploadChunk st uploadId cd ci =
        Except.error (st, "Upload session not found")) ∧
    (∀ (st st' : FileHandler.FHState) (uploadId : String),
      (FileHandler.exceptOk
          (FileHandler.finalizeChunkedUpload st uploadId)).map
        Prod.fst = some st' →
      (∃ u tp, FileHandler.getEntry st'.activeUploads uploadId = some u ∧
        u.status = "completed" ∧ u.tempPath = some tp ∧
        ∀ cd ci, FileHandler.uploadChunk st' uploadId cd ci =
          Except.error
            ({ st' with
               disk := FileHandler.appendDisk st'.disk tp cd
               activeUploads := FileHandler.setEntry st'.activeUploads
                 uploadId { u with status := "failed" } },
              "Digest already called")) ∧
      ∀ cd ci,
        FileHandler.uploadChunk (FileHandler.advanceTime st' 30000)
          uploadId cd ci =
        Except.error (FileHandler.advanceTime st' 30000,
          "Upload session not found")) := by
  refine ⟨?_, ?_, ?_⟩
  · intro st uploadId tp u hu htp
    simp only [FileHandler.cancelUpload, hu, htp]
    refine ⟨?_, trivial, ?_⟩
    · exact FileHandler.getEntry_removeEntry_self st.disk tp
    · intro cd ci
      simp [FileHandler.uploadChunk, FileHandler.getEntry_removeEntry_self]
  · intro st uploadId cd ci hnone
    simp [FileHandler.uploadChunk, hnone]
  · intro st st' uploadId h
    obtain ⟨u, tp, hu, hst, hfin, htp⟩ :=
      FileHandler.finalize_ok_session st uploadId st' h
    obtain ⟨_, hgone⟩ := FileHandler.finalize_ok_shape st uploadId st' h
    refine ⟨⟨u, tp, hu, hst, htp, fun cd ci => ?_⟩, fun cd ci => ?_⟩
    · simp [FileHandler.uploadChunk, hu, htp, hfin]
    · simp [FileHandler.uploadChunk, hgone]

/-- C6 amended, witness: the concrete chunked run exercises all parts:
cancellation cleans up and blocks appends, an unknown id is rejected, the
finalized session takes the append-then-hash-error path, and after the
cleanup delay appends are rejected as not found. -/
theorem cancel_cleanup_and_terminal_appends_witness :
    (FileHandler.readDisk (FileHandler.cancelUpload fhChunked "u1").1.disk
        "temp/u1_f.bin" = none ∧
      (FileHandler.cancelUpload fhChunked "u1").2 = true ∧
      ∀ cd ci,
        FileHandler.uploadChunk (FileHandler.cancelUpload fhChunked "u1").1
          "u1" cd ci =
        Except.error ((FileHandler.cancelUpload fhChunked "u1").1,
          "Upload session not found")) ∧
    (FileHandler.uploadChunk fhEmpty "zz" [1] 0 =
      Except.error (fhEmpty, "Upload session not found")) ∧
    ((∃ u tp, FileHandler.getEntry fhFinalized.activeUploads "u1" = some u ∧
        u.status = "completed" ∧ u.tempPath = some tp ∧
        ∀ cd ci, FileHandler.uploadChunk fhFinalized "u1" cd ci =
          Except.error
            ({ fhFinalized with
               disk := FileHandler.appendDisk fhFinalized.disk tp cd
               activeUploads := FileHandler.setEntry fhFinalized.activeUploads
                 "u1" { u with status := "failed" } },
              "Digest already called")) ∧
      ∀ cd ci,
        FileHandler.uploadChunk (FileHandler.advanceTime fhFinalized 30000)
          "u1" cd ci =
        Except.error (FileHandler.advanceTime fhFinalized 30000,
          "Upload session not found")) := by
  refine ⟨?_, ?_, ?_⟩
  · exact cancel_cleanup_and_terminal_appends.1 fhChunked "u1" "temp/u1_f.bin"
      fhSession (by rfl) (by rfl)
  · exact cancel_cleanup_and_terminal_appends.2.1 fhEmpty "zz" [1] 0 (by rfl)
  · exact cancel_cleanup_and_terminal_appends.2.2 fhChunked fhFinalized "u1"
      (by rfl)

/-- C10: getUploadProgress is a total lookup that never throws: it returns
none for an unknown uploadId, none after cancelUpload, and for a finalized
session it returns the completed session object until the 30-second cleanup
elapses, after which it returns none. -/
theorem getUploadProgress_lifecycle :
    (∀ (st : FileHandler.FHState) (uploadId : String),
      FileHandler.getEntry st.activeUploads uploadId = none →
      FileHandler.getUploadProgress st uploadId = none) ∧
    (∀ (st : FileHandler.FHState) (uploadId : String),
      FileHandler.getUploadProgress (FileHandler.cancelUpload st uploadId).1
        uploadId = none) ∧
    (∀ (st st' : FileHandler.FHState) (uploadId : String),
      (FileHandler.exceptOk (FileHandler.finalizeChunkedUpload st uploadId)).map
          Prod.fst = some st' →
      (∃ u, FileHandler.getUploadProgress st' uploadId = some u ∧
        u.status = "completed") ∧
      FileHandler.getUploadProgress (FileHandler.advanceTime st' 30000)
        uploadId = none) := by
  refine ⟨?_, ?_, ?_⟩
  · intro st uploadId hnone
    exact hnone
  · intro st uploadId
    cases hu : FileHandler.getEntry st.activeUploads uploadId with
    | none => simp [FileHandler.cancelUpload, hu, FileHandler.getUploadProgress]
    | some u =>
      simp only [FileHandler.cancelUpload, hu, FileHandler.getUploadProgress]
      exact FileHandler.getEntry_removeEntry_self st.activeUploads uploadId
  · intro st st' uploadId h
    exact FileHandler.finalize_ok_shape st uploadId st' h

/-- C10 witness: the lifecycle facts at the concrete chunked run. -/
theorem getUploadProgress_lifecycle_witness :
    FileHandler.getUploadProgress fhEmpty "zz" = none ∧
    FileHandler.getUploadProgress (FileHandler.cancelUpload fhChunked "u1").1
      "u1" = none ∧
    ((∃ u, FileHandler.getUploadProgress fhFinalized "u1" = some u ∧
        u.status = "completed") ∧
      FileHandler.getUploadProgress (FileHandler.advanceTime fhFinalized 30000)
        "u1" = none) := by
  refine ⟨getUploadProgress_lifecycle.1 fhEmpty "zz" (by rfl),
    getUploadProgress_lifecycle.2.1 fhChunked "u1",
    getUploadProgress_lifecycle.2.2 fhChunked fhFinalized "u1" (by rfl)⟩

/-- C4: for every valid note payload, createNote succeeds and returns the
freshly created record with synced = 0, and when the network probe reports
offline or every remote call fails, the record also appears in a subsequent
getAllNotes result; the remote failure is never surfaced as an error of the
createNote call. -/
theorem createNote_local_first (st : ODB.ODBState) (nd : ODB.NoteData)
    (priority : Nat) (id : String) (now : Nat) (netOk : Bool)
    (oracle : String → Bool) (v : ODB.ValidatedNote)
    (hv : ODB.validateNoteData nd = Except.ok v)
    (hfail : netOk = false ∨ ∀ s, oracle s = false) :
    ∃ st' note, ODB.createNote st nd priority id now netOk oracle =
        Except.ok (st', note) ∧
      note.synced = 0 ∧ note ∈ ODB.getAllNotes st' := by
  simp only [ODB.createNote, hv]
  refine ⟨_, _, rfl, rfl, ?_⟩
  rw [ODB.getAllNotes, ODB.mem_sortByUpdatedAtDesc]
  rcases hfail with hnet | hofail
  · subst hnet
    simp [ODB.tryImmediateSync]
  · have hno : oracle id = false := hofail id
    simp only [ODB.tryImmediateSync]
    split
    · simp [ODB.syncSingleNote, hno]
    · simp

/-- C4 witness: a concrete valid payload created while the probe reports
offline. -/
theorem createNote_local_first_witness :
    ∃ st' note, ODB.createNote odbBase
        { title := "A", content := some "B", tags := none } 1 "n1" 5 false
        allFail = Except.ok (st', note) ∧
      note.synced = 0 ∧ note ∈ ODB.getAllNotes st' :=
  createNote_local_first odbBase
    { title := "A", content := some "B", tags := none } 1 "n1" 5 false allFail
    { title := "A", content := "B", tags := [] } (by rfl) (Or.inl rfl)

/-- C9 counterexample: the query consisting of the single character percent
is not escaped: searchNotes returns the abc note although percent is not a
substring of its title or content, so the result differs from the
substring-based specification. -/
theorem searchNotes_wildcard_query_differs :
    ODB.searchNotes odbC9 "%" = [noteAbc] ∧
    ODB.specSearchNotes odbC9 "%" = [] := by
  decide

/-- C9 amended: for every query free of the LIKE wildcards percent and
underscore, searchNotes returns exactly the locally stored notes whose
title or content contains the query as an ASCII-case-insensitive substring,
ordered by updatedAt descending, computed from local state alone; queries
containing wildcards are instead interpreted as LIKE patterns. -/
theorem searchNotes_substring_semantics (st : ODB.ODBState) (query : String)
    (hq : ODB.noWildcards query.toList = true) :
    ODB.searchNotes st query = ODB.specSearchNotes st query := by
  unfold ODB.searchNotes ODB.specSearchNotes ODB.searchPattern
  have hfun : (fun n : ODB.Note =>
      ODB.likeMatch ('%' :: (query.toList ++ ['%'])) n.title.toList ||
        ODB.likeMatch ('%' :: (query.toList ++ ['%'])) n.content.toList) =
      (fun n : ODB.Note => ODB.substrCI query.toList n.title.toList ||
        ODB.substrCI query.toList n.content.toList) := by
    funext n
    rw [ODB.likeMatch_substr query.toList hq,
      ODB.likeMatch_substr query.toList hq]
  rw [hfun]

/-- C9 amended, witness: a wildcard-free query evaluated on the concrete
store. -/
theorem searchNotes_substring_semantics_witness :
    ODB.searchNotes odbC9 "b" = ODB.specSearchNotes odbC9 "b" :=
  searchNotes_substring_semantics odbC9 "b" (by decide)

/-- C2 counterexample: with six HIGH-priority unsynced notes against the
batch size of 5 and one MEDIUM note, a single sweep replicates the MEDIUM
record while the sixth HIGH record is never replicated and stays unsynced,
so not every HIGH record is replicated before a MEDIUM one. -/
theorem sweep_replicates_medium_before_all_high :
    (("m1", 2) ∈
      (ODB.syncPendingDataOptimized odbC2 true allOk allOk).1.remoteTrace) ∧
    (("h6", 3) ∉
      (ODB.syncPendingDataOptimized odbC2 true allOk allOk).1.remoteTrace) ∧
    (∃ n ∈ odbC2.sqliteNotes, n.id = "h6" ∧ n.synced = 0 ∧
      n.syncPriority = 3) ∧
    (∃ n ∈ (ODB.syncPendingDataOptimized odbC2 true allOk allOk).1.sqliteNotes,
      n.id = "h6" ∧ n.synced = 0) := by
  decide

/-- C2 amended: within one batch sweep the records actually replicated
(at most one batch of notes and one of files per tier) reach the remote
store in descending priority order: the appended trace is pairwise sorted
with every HIGH entry before any MEDIUM entry and every MEDIUM before any
LOW, whatever the remote outcomes. -/
theorem sweep_trace_priority_sorted (st : ODB.ODBState) (netOk : Bool)
    (oracle oracleF : String → Bool) :
    ∃ l, (ODB.syncPendingDataOptimized st netOk oracle oracleF).1.remoteTrace =
        st.remoteTrace ++ l ∧
      List.Pairwise (fun a b : String × Nat => b.2 ≤ a.2) l := by
  unfold ODB.syncPendingDataOptimized
  by_cases hc : (netOk && st.isOnline) = true
  · rw [if_pos hc]
    have hout := ODB.prioritySweep_out st oracle oracleF
    cases hsw : ODB.prioritySweep st oracle oracleF with
    | ok stS =>
      rw [hsw] at hout
      simp only [ODB.outState] at hout
      obtain ⟨_hctl, l3, l2, l1, htr, h3, h2, h1⟩ := hout
      exact ⟨l3 ++ (l2 ++ l1), htr, ODB.pairwise_ge_tiers l3 l2 l1 h3 h2 h1⟩
    | error stE =>
      rw [hsw] at hout
      simp only [ODB.outState] at hout
      obtain ⟨_hctl, l3, l2, l1, htr, h3, h2, h1⟩ := hout
      refine ⟨l3 ++ (l2 ++ l1), ?_, ODB.pairwise_ge_tiers l3 l2 l1 h3 h2 h1⟩
      by_cases hif : stE.retryCount + 1 ≤ stE.maxRetries <;> simp [hif, htr]
  · rw [if_neg hc]
    exact ⟨[], by simp, List.Pairwise.nil⟩

/-- C8 counterexample: with the retry budget exhausted (retryCount 4 over
maxRetries 3), a successful periodic probe triggers a sweep which fails
again and leaves the retry counter at 5: a probe success does not reset the
counter to zero. -/
theorem probe_success_does_not_reset_retryCount :
    odbC8.retryCount = 4 ∧
    (ODB.periodicStatusCheck odbC8 true true allFail allFail).1.retryCount
      = 5 := by
  decide

/-- C8 amended: a failing record aborts the remaining records of the cycle
(fail-fast); a failed sweep flips the engine offline, increments the retry
counter and schedules a retry after 2 ^ retryCount * 1000 ms only while the
counter has not passed maxRetries; a successful sweep resets the counter to
zero; a successful periodic probe leaves the counter untouched and merely
triggers a new background sweep when the engine was offline. -/
theorem sync_failfast_backoff_reset :
    (∀ (oracle : String → Bool) (ns₁ : List ODB.Note) (st : ODB.ODBState)
        (n : ODB.Note) (ns₂ : List ODB.Note),
      (∀ m ∈ ns₁, oracle m.id = true) → oracle n.id = false →
      ∃ stE, ODB.syncNotesLoop st oracle (ns₁ ++ n :: ns₂) =
          Except.error stE ∧
        stE.remoteTrace = st.remoteTrace ++
          ns₁.map (fun m => (m.id, m.syncPriority))) ∧
    (∀ (st : ODB.ODBState) (oracle oracleF : String → Bool)
        (stE : ODB.ODBState), st.isOnline = true →
      ODB.prioritySweep st oracle oracleF = Except.error stE →
      ODB.syncPendingDataOptimized st true oracle oracleF =
        ({ stE with isOnline := false, retryCount := st.retryCount + 1 },
          if st.retryCount + 1 ≤ st.maxRetries then
            some (2 ^ (st.retryCount + 1) * 1000)
          else none)) ∧
    (∀ (st : ODB.ODBState) (oracle oracleF : String → Bool)
        (stS : ODB.ODBState), st.isOnline = true →
      ODB.prioritySweep st oracle oracleF = Except.ok stS →
      ODB.syncPendingDataOptimized st true oracle oracleF =
        ({ stS with retryCount := 0 }, none)) ∧
    (∀ (st : ODB.ODBState) (oracle oracleF : String → Bool),
      st.isOnline = true →
      ODB.periodicStatusCheck st true true oracle oracleF = (st, none)) ∧
    (∀ (st : ODB.ODBState) (oracle oracleF : String → Bool),
      st.isOnline = false →
      ODB.periodicStatusCheck st true true oracle oracleF =
        ODB.startBackgroundSync { st with isOnline := true } true oracle
          oracleF) := by
  refine ⟨ODB.syncNotesLoop_failfast, ?_, ?_, ?_, ?_⟩
  · intro st oracle oracleF stE hon hsw
    have hout := ODB.prioritySweep_out st oracle oracleF
    rw [hsw] at hout
    simp only [ODB.outState] at hout
    obtain ⟨⟨_, hrc, hmr, _, _⟩, _⟩ := hout
    simp only [ODB.syncPendingDataOptimized, hon, hsw, Bool.and_self,
      if_true]
    rw [hrc, hmr]
    by_cases hif : st.retryCount + 1 ≤ st.maxRetries <;> simp [hif]
  · intro st oracle oracleF stS hon hsw
    simp only [ODB.syncPendingDataOptimized, hon, hsw, Bool.and_self,
      if_true]
  · intro st oracle oracleF hon
    simp [ODB.periodicStatusCheck, hon]
  · intro st oracle oracleF hoff
    simp [ODB.periodicStatusCheck, hoff]

/-- C8 amended, witness: the five parts at concrete states: a failing
record aborting a batch, a failing sweep incrementing the counter and
scheduling the backoff, a clean sweep resetting it, and the probe on an
online and on an offline engine. -/
theorem sync_failfast_backoff_reset_witness :
    (∃ stE, ODB.syncNotesLoop odbBase oracleNotBad
        ([mkNote "g1" 3] ++ mkNote "bad" 3 :: [mkNote "g2" 3]) =
          Except.error stE ∧
      stE.remoteTrace = odbBase.remoteTrace ++
        [mkNote "g1" 3].map (fun m => (m.id, m.syncPriority))) ∧
    (ODB.syncPendingDataOptimized odbC8b true allFail allFail =
      ({ odbC8bErr with
          isOnline := false
          retryCount := odbC8b.retryCount + 1 },
        if odbC8b.retryCount + 1 ≤ odbC8b.maxRetries then
          some (2 ^ (odbC8b.retryCount + 1) * 1000)
        else none)) ∧
    (ODB.syncPendingDataOptimized odbBase true allOk allOk =
      ({ odbBaseOk with retryCount := 0 }, none)) ∧
    (ODB.periodicStatusCheck odbBase true true allOk allOk =
      (odbBase, none)) ∧
    (ODB.periodicStatusCheck odbC8 true true allFail allFail =
      ODB.startBackgroundSync { odbC8 with isOnline := true } true allFail
        allFail) := by
  refine ⟨?_, ?_, ?_, ?_, ?_⟩
  · exact sync_failfast_backoff_reset.1 oracleNotBad [mkNote "g1" 3] odbBase
      (mkNote "bad" 3) [mkNote "g2" 3] (by decide) (by decide)
  · exact sync_failfast_backoff_reset.2.1 odbC8b allFail allFail odbC8bErr
      (by rfl) (by rfl)
  · exact sync_failfast_backoff_reset.2.2.1 odbBase allOk allOk odbBaseOk
      (by rfl) (by rfl)
  · exact sync_failfast_backoff_reset.2.2.2.1 odbBase allOk allOk (by rfl)
  · exact sync_failfast_backoff_reset.2.2.2.2 odbC8 allFail allFail (by rfl)
